import Mathlib

set_option autoImplicit false
set_option linter.unusedVariables false

/-!
Shallow embedding of the MRMSIMU multi-resolution network-merging pipeline
(src/src/connector_utils.py, driven by src/main.py).

Modelling conventions:
* a pandas DataFrame is a list of typed rows, in row order;
* integer-valued columns are `Int`;
* planar coordinates are carried as `Int` (the source manipulates them only by
  subtraction, squaring, comparison and copying, so any linearly ordered
  commutative ring is a faithful carrier; floating point is out of scope);
* the source compares rows by Euclidean distance `sqrt((dx)^2+(dy)^2)`; since
  `sqrt` is strictly monotone on nonnegative reals, ordering by the distance is
  the same as ordering by the squared distance, which is what we carry;
* an operation that raises in Python (`.iloc[0]` on an empty selection,
  `row[col]` on an absent column, `Series.max()` on an empty column — pandas
  returns NaN there, poisoning every later id computation) is modelled with
  `Option`/`Except`, `none`/`.error` meaning the pipeline does not run to
  completion with meaningful integer ids;
* `pd.concat` of frames with different column sets fills the missing columns
  with NaN; a possibly-missing column is typed `Option _`, NaN being `none`.
-/

/-! ### List helpers: stable sort and column maximum

`sortOn lt` is a stable insertion sort by the strict comparison `lt`: an
element is inserted after every element strictly smaller than it and before
everything else, so equal-key elements keep their input order.  This models
both pandas `nsmallest(n, col)` (documented `keep='first'`: stable on ties)
and `sort_values` (whose tie order is unspecified; every claim needs only
that the result is an ordered permutation).

`colMax` is `Series.max()`: `none` on an empty column (pandas yields NaN
there, which is never a meaningful id). -/

/-! ### Nearest-access finder (`find_nearest_scc_nodes`, lines 4-30)

The source copies the `scc_id == 0` selection, writes a per-TAZ `distance`
column `sqrt((x-xt)^2 + (y-yt)^2)`, takes `nsmallest(num_candidates,
'distance')` (keep='first': the `min(k, count)` smallest rows, sorted
ascending, ties kept in row order) and appends one `candidate_node_id_i`
column per returned row.  We carry the squared distance (see header). -/

/-! ### Downstream micro locator (`find_start_micro_nodes`, lines 32-43) -/

/-! ### TAZ-to-micro mapping (`map_taz_to_micro_nodes`, lines 45-67)

`row[candidate_col]` raises `KeyError` when the candidate column is absent
(which happens exactly when `find_nearest_scc_nodes` emitted no candidate
for any row, i.e. the largest SCC was empty); modelled as `Except.error`. -/

/-! ### ID-space reindexer (`compute_shifts` / `reindex_nodes`, lines 69-96) -/

/-! ### Connector synthesizer (lines 113-200) -/

/-! ### Layer merger (`merge_network_layers`, lines 243-289)

The source mutates its argument tables in place: it writes the `layer`
column onto the five node/link frames it received, then adds
`node_shift_meso`/`link_shift_meso` onto the meso link columns,
`node_shift_micro`/`link_shift_meso` onto the micro link columns,
`meso_links['link_id'].max()` onto the micro-connector link ids and
`micro_connector_links['link_id'].max() + 1` onto the micro link ids.  The
three shifted tables below are therefore both the building blocks of the
returned frames and the post-call contents of the caller's variables
(`meso_links`, `micro_connector_links`, `micro_links`); only the
meso-connector argument is never written to. -/

/-! ### Concrete fixtures

`gTaz`..`gMicroLinks` is a small well-formed network: one TAZ (id 10 at the
origin), two meso nodes forming one SCC, a two-hop micro chain subdividing
meso link 1.  The `b`-variants replace the micro node ids by 0 and 1, and
the `e`-variants have an empty largest SCC (every `scc_id` is -1, as
`annotate_nodes_with_scc` produces when the meso link table has no SCC of
that rank for the node). -/

/-! ### Structure lemmas for the connector generators -/

/-! ### Stage inversion lemmas -/

/-! ### Id-block structure of the merged tables -/

/-- Value of the string `layer` column: the source writes the literals
`'taz'`, `'meso'`, `'micro'`. -/
inductive Layer where
  | taz
  | meso
  | micro
deriving DecidableEq, Repr

/-- Row of the TAZ centroid table: columns `TAZ_clean`, `x_coord`, `y_coord`. -/
structure TazRow where
  taz_clean : Int
  x_coord : Int
  y_coord : Int
deriving DecidableEq, Repr

/-- Row of the meso node table after SCC annotation: columns `node_id`,
`x_coord`, `y_coord`, `scc_id`. -/
structure MesoNode where
  node_id : Int
  x_coord : Int
  y_coord : Int
  scc_id : Int
deriving DecidableEq, Repr

/-- Row of the micro node table: columns `node_id`, `x_coord`, `y_coord`,
`meso_link_id`, `lane_no`. -/
structure MicroNode where
  node_id : Int
  x_coord : Int
  y_coord : Int
  meso_link_id : Int
  lane_no : Int
deriving DecidableEq, Repr

/-- Row of the meso link table: required columns `link_id`, `from_node_id`,
`to_node_id`. -/
structure MesoLink where
  link_id : Int
  from_node_id : Int
  to_node_id : Int
deriving DecidableEq, Repr

/-- Row of the micro link table: required columns `link_id`, `from_node_id`,
`to_node_id`, `meso_link_id`, `lane_no`. -/
structure MicroLink where
  link_id : Int
  from_node_id : Int
  to_node_id : Int
  meso_link_id : Int
  lane_no : Int
deriving DecidableEq, Repr

/-- A TAZ row as returned by `find_nearest_scc_nodes`: the original columns
plus the `candidate_node_id_i` columns, kept as a list (`candidates.head?`
is column `candidate_node_id_1`; an empty list means no candidate column
was produced for this row). -/
structure TazCand where
  taz_clean : Int
  x_coord : Int
  y_coord : Int
  candidates : List Int
deriving DecidableEq, Repr

/-- Row of the TAZ-to-micro mapping produced by `map_taz_to_micro_nodes`:
columns `taz_id`, `micro_node_id`, `x_coord`, `y_coord`. -/
structure TazMicroRow where
  taz_id : Int
  micro_node_id : Int
  x_coord : Int
  y_coord : Int
deriving DecidableEq, Repr

/-- A connector link row as emitted by the two connector generators.  The
`geometry` column is the two-point LINESTRING, carried as the ordered pair
of its endpoints' coordinates. -/
structure ConnectorLink where
  link_id : Int
  from_node_id : Int
  to_node_id : Int
  dir_flag : Int
  length : Int
  lanes : Int
  free_speed : Int
  capacity : Int
  link_type_name : String
  link_type : Int
  layer : Layer
  geometry : (Int × Int) × (Int × Int)
  allowed_uses : String
  from_biway : Int
  is_link : Int
deriving DecidableEq, Repr

/-- Row of the table built by `create_taz_nodes`: columns `node_id`, `x`,
`y`, `zone_id` (plus the constant `layer='taz'`).  `zone_id` is the TAZ id. -/
structure TazNode where
  node_id : Int
  x : Int
  y : Int
  zone_id : Option Int
deriving DecidableEq, Repr

/-- Row of the final node table (projection `[node_id, x, y, zone_id,
layer]`).  `x`, `y`, `zone_id` are `Option` because `pd.concat` yields NaN
for a row whose source frame lacks the column (and `reindex_nodes` writes
the empty string into `zone_id` of non-TAZ nodes, modelled `none`). -/
structure FinalNode where
  node_id : Int
  x : Option Int
  y : Option Int
  zone_id : Option Int
  layer : Layer
deriving DecidableEq, Repr

/-- Row of the final link table restricted to the source's `ordered_cols =
[link_id, from_node_id, to_node_id, link_type, layer]`; the remaining
(`extra_cols`) attributes play no role in any claim.  `link_type` is `none`
for rows coming from the meso/micro link tables, whose required input
columns do not include it (NaN after `pd.concat`), and `some 0` for
connector rows. -/
structure FinalLink where
  link_id : Int
  from_node_id : Int
  to_node_id : Int
  link_type : Option Int
  layer : Layer
deriving DecidableEq, Repr

/-- Insert `x` after all elements strictly below it (stable insertion). -/
def insOn {α : Type} (lt : α → α → Bool) (x : α) : List α → List α
  | [] => [x]
  | y :: ys => if lt y x then y :: insOn lt x ys else x :: y :: ys

/-- Stable insertion sort by the strict comparison `lt`. -/
def sortOn {α : Type} (lt : α → α → Bool) : List α → List α
  | [] => []
  | x :: xs => insOn lt x (sortOn lt xs)

/-- Maximum of an integer column; `Series.max()` is NaN on an empty column,
modelled `none`. -/
def colMax : List Int → Option Int
  | [] => none
  | x :: xs =>
    match colMax xs with
    | none => some x
    | some m => some (max x m)

/-- Contiguous run of `n` integers starting at `s`. -/
def intRange (s : Int) : Nat → List Int
  | 0 => []
  | n + 1 => s :: intRange (s + 1) n

/-- Candidate pool: the meso nodes whose `scc_id == 0`. -/
def sccZeroNodes (meso_nodes : List MesoNode) : List MesoNode :=
  meso_nodes.filter (fun n => n.scc_id == 0)

/-- The per-TAZ `distance` column, paired with its row (squared Euclidean
distance from the TAZ's coordinates). -/
def distRows (t : TazRow) (l : List MesoNode) : List (MesoNode × Int) :=
  l.map (fun n =>
    (n, (n.x_coord - t.x_coord) * (n.x_coord - t.x_coord)
      + (n.y_coord - t.y_coord) * (n.y_coord - t.y_coord)))

/-- Strict comparison on the `distance` column. -/
def distLt (a b : MesoNode × Int) : Bool :=
  decide (a.2 < b.2)

/-- The rows `nsmallest(k, 'distance')` returns for one TAZ. -/
def nearestRows (t : TazRow) (meso_nodes : List MesoNode) (k : Nat) :
    List (MesoNode × Int) :=
  (sortOn distLt (distRows t (sccZeroNodes meso_nodes))).take k

/-- For each TAZ, find the closest meso nodes in the largest SCC
(`connector_utils.find_nearest_scc_nodes`). -/
def find_nearest_scc_nodes (taz_df : List TazRow) (meso_nodes : List MesoNode)
    (num_candidates : Nat) : List TazCand :=
  taz_df.map (fun t =>
    { taz_clean := t.taz_clean
      x_coord := t.x_coord
      y_coord := t.y_coord
      candidates := (nearestRows t meso_nodes num_candidates).map
        (fun p => p.1.node_id) })

/-- The `link_id`s of the meso links outgoing from the given meso node. -/
def outgoingMesoLinkIds (meso_node_id : Int) (meso_links : List MesoLink) :
    List Int :=
  (meso_links.filter (fun l => l.from_node_id == meso_node_id)).map
    (fun l => l.link_id)

/-- The micro links whose `meso_link_id` is one of the outgoing meso links
(`micro_links[micro_links['meso_link_id'].isin(meso_link_ids)]`). -/
def microSubset (meso_node_id : Int) (meso_links : List MesoLink)
    (micro_links : List MicroLink) : List MicroLink :=
  micro_links.filter
    (fun l => (outgoingMesoLinkIds meso_node_id meso_links).contains l.meso_link_id)

/-- Micro node ids appearing as a `from_node_id` and never as a
`to_node_id` within that subset: `list(from_nodes - to_nodes)` on Python
sets, modelled as first-occurrence deduplication plus set difference
(claims about this function are order-insensitive). -/
def find_start_micro_nodes (meso_node_id : Int) (meso_links : List MesoLink)
    (micro_links : List MicroLink) : List Int :=
  (((microSubset meso_node_id meso_links micro_links).map
      (fun l => l.from_node_id)).dedup).filter
    (fun x =>
      !((microSubset meso_node_id meso_links micro_links).map
          (fun l => l.to_node_id)).contains x)

def map_taz_to_micro_nodes (taz_candidates : List TazCand)
    (meso_links : List MesoLink) (micro_links : List MicroLink)
    (micro_nodes : List MicroNode) : Except String (List TazMicroRow) :=
  match taz_candidates with
  | [] => .ok []
  | r :: rs =>
    match r.candidates.head? with
    | none => .error ("KeyError: candidate_node_id_1")
    | some cand =>
      match map_taz_to_micro_nodes rs meso_links micro_links micro_nodes with
      | .error e => .error e
      | .ok rest =>
        .ok ((micro_nodes.filter (fun n =>
                (find_start_micro_nodes cand meso_links micro_links).contains
                  n.node_id)).map
              (fun n =>
                { taz_id := r.taz_clean
                  micro_node_id := n.node_id
                  x_coord := n.x_coord
                  y_coord := n.y_coord }) ++ rest)

/-- Shift values for node and link ids (`compute_shifts`): `none` when a
`Series.max()` runs on an empty column (pandas yields NaN, which poisons
every downstream id).  Returns `(node_shift_meso, node_shift_micro,
link_shift_meso)`. -/
def compute_shifts (taz_df : List TazCand) (meso_nodes : List MesoNode) :
    Option (Int × Int × Int) :=
  match colMax (taz_df.map (fun t => t.taz_clean)),
        colMax (meso_nodes.map (fun n => n.node_id)) with
  | some max_taz_id, some max_meso_id =>
    some (max_taz_id + 1, max_taz_id + 1 + max_meso_id,
      2 * (taz_df.length : Int) + 1)
  | _, _ => none

/-- Apply node and link id shifts to copies of the meso and micro node
tables (`reindex_nodes`; the source also writes the empty string into the
`zone_id` column of both copies, which surfaces as `none` in
`mesoNodeToFinal`/`microNodeToFinal` below). -/
def reindex_nodes (meso_nodes : List MesoNode) (micro_nodes : List MicroNode)
    (node_shift_meso node_shift_micro link_shift_meso : Int) :
    List MesoNode × List MicroNode :=
  (meso_nodes.map (fun n => { n with node_id := n.node_id + node_shift_meso }),
   micro_nodes.map (fun n =>
     { n with node_id := n.node_id + node_shift_micro
              meso_link_id := n.meso_link_id + link_shift_meso }))

/-- TAZ node table (`create_taz_nodes`): columns `node_id = TAZ_clean`,
`x = x_coord`, `y = y_coord`, `zone_id = TAZ_clean`, `layer = 'taz'`. -/
def create_taz_nodes (taz_df : List TazCand) : List TazNode :=
  taz_df.map (fun t =>
    { node_id := t.taz_clean
      x := t.x_coord
      y := t.y_coord
      zone_id := some t.taz_clean })

/-- One emitted connector row; every attribute other than the id, the
endpoints, the geometry and the layer is the constant the source writes. -/
def connectorRow (lid fromN toN : Int) (geom : (Int × Int) × (Int × Int))
    (lay : Layer) : ConnectorLink :=
  { link_id := lid
    from_node_id := fromN
    to_node_id := toN
    dir_flag := 1
    length := 100
    lanes := 1
    free_speed := 120
    capacity := 100000
    link_type_name := "connector"
    link_type := 0
    layer := lay
    geometry := geom
    allowed_uses := "auto"
    from_biway := 1
    is_link := 0 }

/-- Loop body of `generate_meso_connectors`, threading the sequential
`link_id` counter.  `row[candidate_col]` on an absent column raises
`KeyError` and `.iloc[0]` on an empty node selection raises `IndexError`;
both are `none`. -/
def genMesoConnAux (meso_nodes : List MesoNode) (node_shift_meso : Int) :
    Int → List TazCand → Option (List ConnectorLink)
  | _, [] => some []
  | lid, t :: ts =>
    match t.candidates.head? with
    | none => none
    | some cand =>
      match (meso_nodes.filter
          (fun n => n.node_id == cand + node_shift_meso)).head? with
      | none => none
      | some mn =>
        match genMesoConnAux meso_nodes node_shift_meso (lid + 2) ts with
        | none => none
        | some rest =>
          some (connectorRow lid t.taz_clean (cand + node_shift_meso)
              ((t.x_coord, t.y_coord), (mn.x_coord, mn.y_coord)) Layer.meso
            :: connectorRow (lid + 1) (cand + node_shift_meso) t.taz_clean
              ((mn.x_coord, mn.y_coord), (t.x_coord, t.y_coord)) Layer.meso
            :: rest)

/-- Bidirectional meso-level connector links from TAZ to (already shifted)
meso nodes (`generate_meso_connectors`); local link ids start at 1. -/
def generate_meso_connectors (taz_df : List TazCand)
    (meso_nodes : List MesoNode) (node_shift_meso : Int) :
    Option (List ConnectorLink) :=
  genMesoConnAux meso_nodes node_shift_meso 1 taz_df

/-- Loop body of `generate_micro_connectors`, threading the `used_nodes`
set and the sequential `link_id` counter.  A row whose shifted micro node
was already claimed is skipped before anything else happens; the TAZ row
lookup `.iloc[0]` raises `IndexError` when no TAZ matches (`none`). -/
def genMicroConnAux (taz_df : List TazCand) (node_shift_micro : Int) :
    List Int → Int → List TazMicroRow → Option (List ConnectorLink)
  | _, _, [] => some []
  | used, lid, r :: rs =>
    if (r.micro_node_id + node_shift_micro) ∈ used then
      genMicroConnAux taz_df node_shift_micro used lid rs
    else
      match (taz_df.filter (fun t => t.taz_clean == r.taz_id)).head? with
      | none => none
      | some t =>
        match genMicroConnAux taz_df node_shift_micro
            ((r.micro_node_id + node_shift_micro) :: used) (lid + 2) rs with
        | none => none
        | some rest =>
          some (connectorRow lid r.taz_id (r.micro_node_id + node_shift_micro)
              ((t.x_coord, t.y_coord), (r.x_coord, r.y_coord)) Layer.micro
            :: connectorRow (lid + 1) (r.micro_node_id + node_shift_micro)
              r.taz_id
              ((r.x_coord, r.y_coord), (t.x_coord, t.y_coord)) Layer.micro
            :: rest)

/-- Bidirectional micro-level connector links from TAZ to micro entry
nodes (`generate_micro_connectors`); the `micro_nodes` argument is unused
in the source as well; local link ids start at the default 1. -/
def generate_micro_connectors (taz_df : List TazCand)
    (taz_micro_map : List TazMicroRow) (micro_nodes : List MicroNode)
    (node_shift_micro : Int) : Option (List ConnectorLink) :=
  genMicroConnAux taz_df node_shift_micro [] 1 taz_micro_map

/-- Master function (`prepare_and_generate_connectors`): compute shifts,
reindex nodes, create TAZ nodes, generate meso and micro connectors.
Returns `(updated_meso_nodes, updated_micro_nodes, taz_nodes,
meso_connectors, micro_connectors, node_shift_meso, node_shift_micro,
link_shift_meso)`. -/
def prepare_and_generate_connectors (taz_df : List TazCand)
    (meso_nodes : List MesoNode) (micro_nodes : List MicroNode)
    (taz_micro_map : List TazMicroRow) :
    Option (List MesoNode × List MicroNode × List TazNode ×
      List ConnectorLink × List ConnectorLink × Int × Int × Int) :=
  match compute_shifts taz_df meso_nodes with
  | none => none
  | some (node_shift_meso, node_shift_micro, link_shift_meso) =>
    match reindex_nodes meso_nodes micro_nodes node_shift_meso
        node_shift_micro link_shift_meso with
    | (updated_meso_nodes, updated_micro_nodes) =>
      match generate_meso_connectors taz_df updated_meso_nodes
          node_shift_meso with
      | none => none
      | some meso_connectors =>
        match generate_micro_connectors taz_df taz_micro_map micro_nodes
            node_shift_micro with
        | none => none
        | some micro_connectors =>
          some (updated_meso_nodes, updated_micro_nodes,
            create_taz_nodes taz_df, meso_connectors, micro_connectors,
            node_shift_meso, node_shift_micro, link_shift_meso)

/-- Contents of the `meso_links` frame after `merge_network_layers` ran
(lines 262-264: endpoints `+= node_shift_meso`, ids `+= link_shift_meso`;
the in-place `layer` tag is carried into `mesoLinkToFinal`). -/
def mesoLinksShifted (meso_links : List MesoLink)
    (node_shift_meso link_shift_meso : Int) : List MesoLink :=
  meso_links.map (fun l =>
    { link_id := l.link_id + link_shift_meso
      from_node_id := l.from_node_id + node_shift_meso
      to_node_id := l.to_node_id + node_shift_meso })

/-- Contents of the `micro_links` frame after `merge_network_layers` ran
(lines 266-268 and 273: endpoints `+= node_shift_micro`, back-reference
`+= link_shift_meso`, ids `+= link_shift_micro`). -/
def microLinksShifted (micro_links : List MicroLink)
    (node_shift_micro link_shift_meso link_shift_micro : Int) :
    List MicroLink :=
  micro_links.map (fun l =>
    { link_id := l.link_id + link_shift_micro
      from_node_id := l.from_node_id + node_shift_micro
      to_node_id := l.to_node_id + node_shift_micro
      meso_link_id := l.meso_link_id + link_shift_meso
      lane_no := l.lane_no })

/-- Contents of the `micro_connector_links` frame after
`merge_network_layers` ran (line 271: ids `+=` max shifted meso link id). -/
def microConnShifted (micro_connector_links : List ConnectorLink)
    (link_shift_connector_micro : Int) : List ConnectorLink :=
  micro_connector_links.map (fun c =>
    { c with link_id := c.link_id + link_shift_connector_micro })

/-- Projection of a connector row to `ordered_cols`; its `link_type` column
holds the literal 0. -/
def connToFinal (c : ConnectorLink) : FinalLink :=
  { link_id := c.link_id
    from_node_id := c.from_node_id
    to_node_id := c.to_node_id
    link_type := some c.link_type
    layer := c.layer }

/-- Projection of a (shifted) meso link row: its frame carries no
`link_type` column, so the projected column is NaN (`none`); the `layer`
column was written in place at line 260. -/
def mesoLinkToFinal (l : MesoLink) : FinalLink :=
  { link_id := l.link_id
    from_node_id := l.from_node_id
    to_node_id := l.to_node_id
    link_type := none
    layer := Layer.meso }

/-- Projection of a (shifted) micro link row, as `mesoLinkToFinal`. -/
def microLinkToFinal (l : MicroLink) : FinalLink :=
  { link_id := l.link_id
    from_node_id := l.from_node_id
    to_node_id := l.to_node_id
    link_type := none
    layer := Layer.micro }

/-- Projection of a TAZ node row to `[node_id, x, y, zone_id, layer]`:
`create_taz_nodes` named its coordinate columns `x` and `y`, so they
survive the projection. -/
def tazNodeToFinal (n : TazNode) : FinalNode :=
  { node_id := n.node_id
    x := some n.x
    y := some n.y
    zone_id := n.zone_id
    layer := Layer.taz }

/-- Projection of an updated meso node row: the meso node frame names its
coordinate columns `x_coord`/`y_coord`, not `x`/`y`, so after `pd.concat`
the projected `x` and `y` columns of this row are NaN (`none`); `zone_id`
was set to the empty string by `reindex_nodes` (`none`). -/
def mesoNodeToFinal (n : MesoNode) : FinalNode :=
  { node_id := n.node_id
    x := none
    y := none
    zone_id := none
    layer := Layer.meso }

/-- Projection of an updated micro node row, as `mesoNodeToFinal`. -/
def microNodeToFinal (n : MicroNode) : FinalNode :=
  { node_id := n.node_id
    x := none
    y := none
    zone_id := none
    layer := Layer.micro }

/-- Comparison used by `final_nodes.sort_values('node_id')`. -/
def nodeLt (a b : FinalNode) : Bool :=
  decide (a.node_id < b.node_id)

/-- Comparison used by
`final_links.sort_values(by=['from_node_id', 'to_node_id'])`. -/
def linkLt (a b : FinalLink) : Bool :=
  decide (a.from_node_id < b.from_node_id ∨
    (a.from_node_id = b.from_node_id ∧ a.to_node_id < b.to_node_id))

/-- Merge meso/micro/taz nodes and links into the two final tables
(`merge_network_layers`).  `none` when `meso_links['link_id'].max()` runs
on an empty column (NaN would poison every id downstream) or when the
micro-connector frame is empty (a frame built from an empty list of dicts
has no columns at all, so `micro_connector_links['link_id']` raises
`KeyError`). -/
def merge_network_layers (meso_links : List MesoLink)
    (meso_connector_links : List ConnectorLink)
    (micro_links : List MicroLink)
    (micro_connector_links : List ConnectorLink)
    (meso_nodes : List MesoNode) (micro_nodes : List MicroNode)
    (taz_nodes : List TazNode)
    (node_shift_meso node_shift_micro link_shift_meso : Int) :
    Option (List FinalLink × List FinalNode) :=
  match colMax ((mesoLinksShifted meso_links node_shift_meso
      link_shift_meso).map (fun l => l.link_id)), micro_connector_links with
  | some link_shift_connector_micro, _ :: _ =>
    match colMax ((microConnShifted micro_connector_links
        link_shift_connector_micro).map (fun c => c.link_id)) with
    | none => none
    | some max_conn_micro =>
      some
        (sortOn linkLt
          (meso_connector_links.map connToFinal
            ++ (mesoLinksShifted meso_links node_shift_meso
                link_shift_meso).map mesoLinkToFinal
            ++ (microConnShifted micro_connector_links
                link_shift_connector_micro).map connToFinal
            ++ (microLinksShifted micro_links node_shift_micro
                link_shift_meso (max_conn_micro + 1)).map microLinkToFinal),
         sortOn nodeLt
          (taz_nodes.map tazNodeToFinal
            ++ meso_nodes.map mesoNodeToFinal
            ++ micro_nodes.map microNodeToFinal))
  | _, _ => none

/-- Steps 3-6 of `main.py`: candidate search, TAZ-to-micro mapping,
connector generation and the final merge, starting from the SCC-annotated
meso node table (step 2 only adds the `scc_id` column).  `main` fixes
`num_candidates = 1`. -/
def pipeline (taz_df : List TazRow) (meso_nodes : List MesoNode)
    (meso_links : List MesoLink) (micro_nodes : List MicroNode)
    (micro_links : List MicroLink) :
    Option (List FinalLink × List FinalNode) :=
  match map_taz_to_micro_nodes (find_nearest_scc_nodes taz_df meso_nodes 1)
      meso_links micro_links micro_nodes with
  | .error _ => none
  | .ok taz_micro_map =>
    match prepare_and_generate_connectors
        (find_nearest_scc_nodes taz_df meso_nodes 1) meso_nodes micro_nodes
        taz_micro_map with
    | none => none
    | some (updated_meso_nodes, updated_micro_nodes, taz_nodes,
        meso_connector_links, micro_connector_links,
        node_shift_meso, node_shift_micro, link_shift_meso) =>
      merge_network_layers meso_links meso_connector_links micro_links
        micro_connector_links updated_meso_nodes updated_micro_nodes
        taz_nodes node_shift_meso node_shift_micro link_shift_meso

def gTaz : List TazRow :=
  [{ taz_clean := 10, x_coord := 0, y_coord := 0 }]

def gMesoNodes : List MesoNode :=
  [{ node_id := 1, x_coord := 0, y_coord := 1, scc_id := 0 },
   { node_id := 2, x_coord := 0, y_coord := 3, scc_id := 0 }]

def gMesoLinks : List MesoLink :=
  [{ link_id := 1, from_node_id := 1, to_node_id := 2 },
   { link_id := 2, from_node_id := 2, to_node_id := 1 }]

def gMicroNodes : List MicroNode :=
  [{ node_id := 1, x_coord := 0, y_coord := 1, meso_link_id := 1, lane_no := 1 },
   { node_id := 2, x_coord := 0, y_coord := 2, meso_link_id := 1, lane_no := 1 }]

def gMicroLinks : List MicroLink :=
  [{ link_id := 1, from_node_id := 1, to_node_id := 2, meso_link_id := 1, lane_no := 1 }]

def bMicroNodes : List MicroNode :=
  [{ node_id := 0, x_coord := 0, y_coord := 1, meso_link_id := 1, lane_no := 1 },
   { node_id := 1, x_coord := 0, y_coord := 2, meso_link_id := 1, lane_no := 1 }]

def bMicroLinks : List MicroLink :=
  [{ link_id := 1, from_node_id := 0, to_node_id := 1, meso_link_id := 1, lane_no := 1 }]

def eTaz : List TazRow :=
  [{ taz_clean := 10, x_coord := 0, y_coord := 0 }]

def eMesoNodes : List MesoNode :=
  [{ node_id := 1, x_coord := 0, y_coord := 1, scc_id := -1 }]

/-- The two final tables of the well-formed run (`([], [])` cannot occur:
the run completes). -/
def gOut : List FinalLink × List FinalNode :=
  (pipeline gTaz gMesoNodes gMesoLinks gMicroNodes gMicroLinks).getD ([], [])

/-- The node-id column of a (possibly failed) pipeline result. -/
def resultNodeIds (o : Option (List FinalLink × List FinalNode)) : List Int :=
  match o with
  | none => []
  | some r => r.2.map (fun n => n.node_id)

/-- The link-id column of a (possibly failed) pipeline result. -/
def resultLinkIds (o : Option (List FinalLink × List FinalNode)) : List Int :=
  match o with
  | none => []
  | some r => r.1.map (fun l => l.link_id)

/-- The final node rows of a (possibly failed) pipeline result. -/
def resultNodes (o : Option (List FinalLink × List FinalNode)) :
    List FinalNode :=
  match o with
  | none => []
  | some r => r.2

/-- The link-id column of the final rows selected by a predicate. -/
def selectLinkIds (p : FinalLink → Bool)
    (o : Option (List FinalLink × List FinalNode)) : List Int :=
  match o with
  | none => []
  | some r => (r.1.filter p).map (fun l => l.link_id)

/-- Classifier of a final link row into the four id blocks, in the order
the merged id space actually uses them (meso connectors, meso links,
micro connectors, micro links); connectors are the rows whose `link_type`
column is present (`some 0`). -/
def linkBlock (l : FinalLink) : Nat :=
  match l.layer, l.link_type with
  | Layer.meso, some _ => 0
  | Layer.meso, none => 1
  | Layer.micro, some _ => 2
  | Layer.micro, none => 3
  | Layer.taz, _ => 0

/-- The rows of a connector table come in forward/reverse pairs: swapped
endpoints, reversed two-point geometry, identical `length`. -/
inductive PairedConn : List ConnectorLink → Prop where
  | nil : PairedConn []
  | pair (a b : ConnectorLink) (l : List ConnectorLink)
      (hfrom : b.from_node_id = a.to_node_id)
      (hto : b.to_node_id = a.from_node_id)
      (hg1 : b.geometry.1 = a.geometry.2)
      (hg2 : b.geometry.2 = a.geometry.1)
      (hlen : b.length = a.length)
      (htail : PairedConn l) : PairedConn (a :: b :: l)

/-- Discriminator for `Except` results (`.ok` vs a raised error). -/
def exceptIsOk {e a : Type} : Except e a → Bool
  | .ok _ => true
  | .error _ => false

/-- Intermediate values of the well-formed concrete run. -/
def gTazCand : List TazCand := find_nearest_scc_nodes gTaz gMesoNodes 1

def gUpdatedMesoNodes : List MesoNode :=
  (reindex_nodes gMesoNodes gMicroNodes 11 13 3).1

def gTazMicroMap : List TazMicroRow :=
  match map_taz_to_micro_nodes gTazCand gMesoLinks gMicroLinks gMicroNodes
    with
  | .ok r => r
  | .error _ => []

def gMesoConn : List ConnectorLink :=
  (generate_meso_connectors gTazCand gUpdatedMesoNodes 11).getD []

def gMicroConn : List ConnectorLink :=
  (generate_micro_connectors gTazCand gTazMicroMap gMicroNodes 13).getD []

theorem insOn_perm {α : Type} (lt : α → α → Bool) (x : α) :
    ∀ l : List α, (insOn lt x l).Perm (x :: l) := by
  intro l
  induction l with
  | nil => simp [insOn]
  | cons y ys ih =>
    by_cases h : lt y x = true
    · simp only [insOn, h, if_pos]
      exact ((ih.cons y).trans (List.Perm.swap x y ys))
    · simp only [insOn, h]
      simp

theorem sortOn_perm {α : Type} (lt : α → α → Bool) :
    ∀ l : List α, (sortOn lt l).Perm l := by
  intro l
  induction l with
  | nil => simp [sortOn]
  | cons x xs ih =>
    exact (insOn_perm lt x (sortOn lt xs)).trans (ih.cons x)

theorem mem_insOn {α : Type} (lt : α → α → Bool) (x a : α) (l : List α) :
    a ∈ insOn lt x l ↔ a = x ∨ a ∈ l := by
  have h := (insOn_perm lt x l).mem_iff (a := a)
  simpa using h

theorem mem_sortOn {α : Type} (lt : α → α → Bool) (a : α) (l : List α) :
    a ∈ sortOn lt l ↔ a ∈ l :=
  (sortOn_perm lt l).mem_iff

theorem length_sortOn {α : Type} (lt : α → α → Bool) (l : List α) :
    (sortOn lt l).length = l.length :=
  (sortOn_perm lt l).length_eq

theorem pairwise_insOn {α : Type} (lt : α → α → Bool)
    (hasym : ∀ a b, lt a b = true → lt b a = false)
    (hneg : ∀ a b c, lt b a = false → lt c b = false → lt c a = false)
    (x : α) (l : List α) (hl : l.Pairwise (fun a b => lt b a = false)) :
    (insOn lt x l).Pairwise (fun a b => lt b a = false) := by
  induction l with
  | nil => simp [insOn]
  | cons y ys ih =>
    rcases List.pairwise_cons.mp hl with ⟨hy, hys⟩
    by_cases h : lt y x = true
    · simp only [insOn, h, if_pos]
      refine List.pairwise_cons.mpr ⟨?_, ih hys⟩
      intro z hz
      rcases (mem_insOn lt x z ys).mp hz with rfl | hz
      · exact hasym y z h
      · exact hy z hz
    · simp only [insOn, h, if_neg]
      have hxfalse : lt y x = false := by
        cases hxy : lt y x with
        | false => rfl
        | true => exact absurd hxy (by simp [h])
      refine List.pairwise_cons.mpr ⟨?_, hl⟩
      intro z hz
      rcases hz with _ | hz
      · exact hxfalse
      · exact hneg x y z hxfalse (hy z (by assumption))

theorem pairwise_sortOn {α : Type} (lt : α → α → Bool)
    (hasym : ∀ a b, lt a b = true → lt b a = false)
    (hneg : ∀ a b c, lt b a = false → lt c b = false → lt c a = false)
    (l : List α) :
    (sortOn lt l).Pairwise (fun a b => lt b a = false) := by
  induction l with
  | nil => simp [sortOn]
  | cons x xs ih => exact pairwise_insOn lt hasym hneg x (sortOn lt xs) ih

theorem bool_eq_false {b : Bool} (h : ¬ b = true) : b = false := by
  cases b with
  | false => rfl
  | true => exact absurd rfl h

theorem filter_insOn {α : Type} (lt : α → α → Bool) (p : α → Bool)
    (x : α) (l : List α)
    (hp : p x = true → ∀ y ∈ l, p y = true → lt y x = false) :
    (insOn lt x l).filter p = if p x then x :: l.filter p else l.filter p := by
  induction l with
  | nil => cases h : p x <;> simp [insOn, List.filter, h]
  | cons y ys ih =>
    have ihuse := ih (fun hx z hz hpz => hp hx z (List.mem_cons_of_mem y hz) hpz)
    by_cases h : lt y x = true
    · by_cases hpx : p x = true
      · have hpy : p y = false := by
          cases hy : p y with
          | false => rfl
          | true =>
            have hc := hp hpx y (List.mem_cons_self y ys) hy
            simp [hc] at h
        simp [insOn, h, List.filter_cons, hpy, hpx, ihuse]
      · have hpx' : p x = false := bool_eq_false hpx
        simp [insOn, h, List.filter_cons, hpx', ihuse]
    · have h' : lt y x = false := bool_eq_false h
      by_cases hpx : p x = true
      · simp [insOn, h', List.filter_cons, hpx]
      · have hpx' : p x = false := bool_eq_false hpx
        simp [insOn, h', List.filter_cons, hpx']

theorem filter_sortOn {α : Type} (lt : α → α → Bool) (p : α → Bool)
    (hglob : ∀ a b, p a = true → p b = true → lt a b = false)
    (l : List α) :
    (sortOn lt l).filter p = l.filter p := by
  induction l with
  | nil => simp [sortOn]
  | cons x xs ih =>
    have h := filter_insOn lt p x (sortOn lt xs)
      (fun hx y _ hy => hglob y x hy hx)
    by_cases hpx : p x = true
    · simp [sortOn, h, hpx, ih, List.filter_cons]
    · have hpx' : p x = false := bool_eq_false hpx
      simp [sortOn, h, hpx', ih, List.filter_cons]

theorem colMax_cons_ne_none (y : Int) (ys : List Int) :
    colMax (y :: ys) ≠ none := by
  simp only [colMax]
  cases colMax ys <;> simp

theorem colMax_le {l : List Int} : ∀ {m : Int}, colMax l = some m → ∀ x ∈ l, x ≤ m := by
  induction l with
  | nil => intro m h; simp [colMax] at h
  | cons y ys ih =>
    intro m h x hx
    simp only [colMax] at h
    cases hys : colMax ys with
    | none =>
      rw [hys] at h
      have hm := Option.some.inj h
      subst hm
      cases ys with
      | nil =>
        have hxy : x = y := by simpa using hx
        exact le_of_eq hxy
      | cons z zs => exact absurd hys (colMax_cons_ne_none z zs)
    | some m0 =>
      rw [hys] at h
      have hm := Option.some.inj h
      subst hm
      rcases List.mem_cons.mp hx with rfl | hx
      · exact le_max_left _ _
      · exact le_trans (ih hys x hx) (le_max_right _ _)

theorem colMax_mem {l : List Int} : ∀ {m : Int}, colMax l = some m → m ∈ l := by
  induction l with
  | nil => intro m h; simp [colMax] at h
  | cons y ys ih =>
    intro m h
    simp only [colMax] at h
    cases hys : colMax ys with
    | none =>
      rw [hys] at h
      have hm := Option.some.inj h
      subst hm
      simp
    | some m0 =>
      rw [hys] at h
      have hm := Option.some.inj h
      rcases max_choice y m0 with hc | hc
      · rw [hc] at hm
        subst hm
        exact List.mem_cons_self y ys
      · rw [hc] at hm
        subst hm
        exact List.mem_cons.mpr (Or.inr (ih hys))

theorem length_intRange (s : Int) (n : Nat) : (intRange s n).length = n := by
  induction n generalizing s with
  | zero => rfl
  | succ k ih => simp [intRange, ih]

theorem mem_intRange {x s : Int} {n : Nat} :
    x ∈ intRange s n ↔ s ≤ x ∧ x < s + n := by
  induction n generalizing s with
  | zero => simp [intRange]
  | succ k ih =>
    simp only [intRange, List.mem_cons, ih]
    constructor
    · rintro (rfl | ⟨h1, h2⟩) <;> omega
    · intro ⟨h1, h2⟩
      by_cases hx : x = s
      · exact Or.inl hx
      · right; constructor <;> omega

theorem nodup_intRange (s : Int) (n : Nat) : (intRange s n).Nodup := by
  induction n generalizing s with
  | zero => simp [intRange]
  | succ k ih =>
    simp only [intRange, List.nodup_cons]
    refine ⟨?_, ih (s + 1)⟩
    intro hmem
    have := mem_intRange.mp hmem
    omega

theorem map_add_intRange (s c : Int) (n : Nat) :
    (intRange s n).map (fun x => x + c) = intRange (s + c) n := by
  induction n generalizing s with
  | zero => rfl
  | succ k ih =>
    simp only [intRange, List.map_cons, ih]
    congr 2
    omega

theorem disjoint_of_bound {l1 l2 : List Int} (B : Int)
    (h1 : ∀ x ∈ l1, x ≤ B) (h2 : ∀ y ∈ l2, B < y) : l1.Disjoint l2 := by
  intro a ha1 ha2
  exact absurd (h1 a ha1) (not_le.mpr (h2 a ha2))

theorem PairedConn.even_length {l : List ConnectorLink} (h : PairedConn l) :
    l.length % 2 = 0 := by
  induction h with
  | nil => rfl
  | pair a b l hfrom hto hg1 hg2 hlen htail ih =>
    simp only [List.length_cons]
    omega

theorem genMesoConnAux_cons_inv (mn : List MesoNode) (nsm lid : Int)
    (t : TazCand) (ts : List TazCand) (l : List ConnectorLink)
    (h : genMesoConnAux mn nsm lid (t :: ts) = some l) :
    ∃ cand node rest, t.candidates.head? = some cand ∧
      (mn.filter (fun n => n.node_id == cand + nsm)).head? = some node ∧
      genMesoConnAux mn nsm (lid + 2) ts = some rest ∧
      l = connectorRow lid t.taz_clean (cand + nsm)
            ((t.x_coord, t.y_coord), (node.x_coord, node.y_coord)) Layer.meso
          :: connectorRow (lid + 1) (cand + nsm) t.taz_clean
            ((node.x_coord, node.y_coord), (t.x_coord, t.y_coord)) Layer.meso
          :: rest := by
  simp only [genMesoConnAux] at h
  split at h
  · exact Option.noConfusion h
  next cand hc =>
    split at h
    · exact Option.noConfusion h
    next node hm =>
      split at h
      · exact Option.noConfusion h
      next rest hr =>
        exact ⟨cand, node, rest, hc, hm, hr, (Option.some.inj h).symm⟩

theorem genMicroConnAux_cons_inv (taz : List TazCand) (nsmi : Int)
    (used : List Int) (lid : Int) (r : TazMicroRow) (rs : List TazMicroRow)
    (l : List ConnectorLink)
    (h : genMicroConnAux taz nsmi used lid (r :: rs) = some l) :
    (r.micro_node_id + nsmi ∈ used ∧
      genMicroConnAux taz nsmi used lid rs = some l) ∨
    (r.micro_node_id + nsmi ∉ used ∧ ∃ t rest,
      (taz.filter (fun x => x.taz_clean == r.taz_id)).head? = some t ∧
      genMicroConnAux taz nsmi ((r.micro_node_id + nsmi) :: used) (lid + 2)
        rs = some rest ∧
      l = connectorRow lid r.taz_id (r.micro_node_id + nsmi)
            ((t.x_coord, t.y_coord), (r.x_coord, r.y_coord)) Layer.micro
          :: connectorRow (lid + 1) (r.micro_node_id + nsmi) r.taz_id
            ((r.x_coord, r.y_coord), (t.x_coord, t.y_coord)) Layer.micro
          :: rest) := by
  simp only [genMicroConnAux] at h
  by_cases hu : r.micro_node_id + nsmi ∈ used
  · rw [if_pos hu] at h
    exact Or.inl ⟨hu, h⟩
  · rw [if_neg hu] at h
    split at h
    · exact Option.noConfusion h
    next t ht =>
      split at h
      · exact Option.noConfusion h
      next rest hr =>
        exact Or.inr ⟨hu, t, rest, ht, hr, (Option.some.inj h).symm⟩

theorem genMesoConnAux_paired (mn : List MesoNode) (nsm : Int) :
    ∀ (ts : List TazCand) (lid : Int) (l : List ConnectorLink),
      genMesoConnAux mn nsm lid ts = some l → PairedConn l := by
  intro ts
  induction ts with
  | nil =>
    intro lid l h
    simp only [genMesoConnAux] at h
    rw [← Option.some.inj h]
    exact PairedConn.nil
  | cons t ts ih =>
    intro lid l h
    obtain ⟨cand, node, rest, hc, hm, hr, hl⟩ :=
      genMesoConnAux_cons_inv mn nsm lid t ts l h
    subst hl
    exact PairedConn.pair _ _ _ rfl rfl rfl rfl rfl (ih (lid + 2) rest hr)

theorem genMicroConnAux_paired (taz : List TazCand) (nsmi : Int) :
    ∀ (rs : List TazMicroRow) (used : List Int) (lid : Int)
      (l : List ConnectorLink),
      genMicroConnAux taz nsmi used lid rs = some l → PairedConn l := by
  intro rs
  induction rs with
  | nil =>
    intro used lid l h
    simp only [genMicroConnAux] at h
    rw [← Option.some.inj h]
    exact PairedConn.nil
  | cons r rs ih =>
    intro used lid l h
    rcases genMicroConnAux_cons_inv taz nsmi used lid r rs l h with
      ⟨_, hrec⟩ | ⟨_, t, rest, ht, hr, hl⟩
    · exact ih used lid l hrec
    · subst hl
      exact PairedConn.pair _ _ _ rfl rfl rfl rfl rfl
        (ih ((r.micro_node_id + nsmi) :: used) (lid + 2) rest hr)

theorem intRange_succ_succ (s : Int) (n : Nat) :
    intRange s (n + 2) = s :: (s + 1) :: intRange (s + 2) n := by
  have h2 : s + 1 + 1 = s + 2 := by ring
  simp [intRange, h2]

/-- Link ids of a successful `generate_meso_connectors` run: the exact
sequence `lid, lid+1, ..., lid + 2*T - 1` (the source starts `lid = 1` and
bumps it once per emitted row); every row is tagged `layer='meso'`,
`link_type=0`. -/
theorem genMesoConnAux_ids (mn : List MesoNode) (nsm : Int) :
    ∀ (ts : List TazCand) (lid : Int) (l : List ConnectorLink),
      genMesoConnAux mn nsm lid ts = some l →
      l.map (fun c => c.link_id) = intRange lid (2 * ts.length) ∧
      ∀ c ∈ l, c.layer = Layer.meso ∧ c.link_type = 0 := by
  intro ts
  induction ts with
  | nil =>
    intro lid l h
    simp only [genMesoConnAux] at h
    rw [← Option.some.inj h]
    simp [intRange]
  | cons t ts ih =>
    intro lid l h
    obtain ⟨cand, node, rest, hc, hm, hr, hl⟩ :=
      genMesoConnAux_cons_inv mn nsm lid t ts l h
    obtain ⟨hids, hlay⟩ := ih (lid + 2) rest hr
    subst hl
    constructor
    · have hn : 2 * ((t :: ts).length) = 2 * ts.length + 2 := by
        simp only [List.length_cons]
        ring
      rw [hn, intRange_succ_succ]
      simp [connectorRow, hids]
    · intro c hcmem
      simp only [List.mem_cons] at hcmem
      rcases hcmem with rfl | rfl | hcmem
      · exact ⟨rfl, rfl⟩
      · exact ⟨rfl, rfl⟩
      · exact hlay c hcmem

/-- Link ids of a successful `generate_micro_connectors` run: the exact
sequence `lid, ..., lid + len - 1` (skipped duplicate rows consume no id);
every row is tagged `layer='micro'`, `link_type=0`. -/
theorem genMicroConnAux_ids (taz : List TazCand) (nsmi : Int) :
    ∀ (rs : List TazMicroRow) (used : List Int) (lid : Int)
      (l : List ConnectorLink),
      genMicroConnAux taz nsmi used lid rs = some l →
      l.map (fun c => c.link_id) = intRange lid l.length ∧
      ∀ c ∈ l, c.layer = Layer.micro ∧ c.link_type = 0 := by
  intro rs
  induction rs with
  | nil =>
    intro used lid l h
    simp only [genMicroConnAux] at h
    rw [← Option.some.inj h]
    simp [intRange]
  | cons r rs ih =>
    intro used lid l h
    rcases genMicroConnAux_cons_inv taz nsmi used lid r rs l h with
      ⟨_, hrec⟩ | ⟨_, t, rest, ht, hr, hl⟩
    · exact ih used lid l hrec
    · obtain ⟨hids, hlay⟩ := ih ((r.micro_node_id + nsmi) :: used) (lid + 2)
        rest hr
      subst hl
      constructor
      · simp only [List.length_cons]
        have hn : rest.length + 1 + 1 = rest.length + 2 := by omega
        rw [hn, intRange_succ_succ]
        simp [connectorRow, hids]
      · intro c hcmem
        simp only [List.mem_cons] at hcmem
        rcases hcmem with rfl | rfl | hcmem
        · exact ⟨rfl, rfl⟩
        · exact ⟨rfl, rfl⟩
        · exact hlay c hcmem

theorem find_nearest_taz_ids (taz_df : List TazRow)
    (meso_nodes : List MesoNode) (k : Nat) :
    (find_nearest_scc_nodes taz_df meso_nodes k).map (fun t => t.taz_clean)
      = taz_df.map (fun t => t.taz_clean) := by
  simp only [find_nearest_scc_nodes, List.map_map]
  rfl

theorem find_nearest_length (taz_df : List TazRow)
    (meso_nodes : List MesoNode) (k : Nat) :
    (find_nearest_scc_nodes taz_df meso_nodes k).length = taz_df.length := by
  simp [find_nearest_scc_nodes]

theorem compute_shifts_inv (taz_df : List TazCand)
    (meso_nodes : List MesoNode) (nsm nsmi lsm : Int)
    (h : compute_shifts taz_df meso_nodes = some (nsm, nsmi, lsm)) :
    ∃ max_taz_id max_meso_id,
      colMax (taz_df.map (fun t => t.taz_clean)) = some max_taz_id ∧
      colMax (meso_nodes.map (fun n => n.node_id)) = some max_meso_id ∧
      nsm = max_taz_id + 1 ∧ nsmi = max_taz_id + 1 + max_meso_id ∧
      lsm = 2 * (taz_df.length : Int) + 1 := by
  simp only [compute_shifts] at h
  split at h
  next mt mm h1 h2 =>
    obtain ⟨e1, e2, e3⟩ : nsm = mt + 1 ∧ nsmi = mt + 1 + mm ∧
        lsm = 2 * (taz_df.length : Int) + 1 := by
      have := Option.some.inj h
      simp only [Prod.ext_iff] at this
      exact ⟨this.1.symm, this.2.1.symm, this.2.2.symm⟩
    exact ⟨mt, mm, h1, h2, e1, e2, e3⟩
  next => exact Option.noConfusion h

theorem prepare_inv (taz_df : List TazCand) (meso_nodes : List MesoNode)
    (micro_nodes : List MicroNode) (taz_micro_map : List TazMicroRow)
    (res : List MesoNode × List MicroNode × List TazNode ×
      List ConnectorLink × List ConnectorLink × Int × Int × Int)
    (h : prepare_and_generate_connectors taz_df meso_nodes micro_nodes
      taz_micro_map = some res) :
    ∃ nsm nsmi lsm mc uc,
      compute_shifts taz_df meso_nodes = some (nsm, nsmi, lsm) ∧
      generate_meso_connectors taz_df
        (reindex_nodes meso_nodes micro_nodes nsm nsmi lsm).1 nsm = some mc ∧
      generate_micro_connectors taz_df taz_micro_map micro_nodes nsmi
        = some uc ∧
      res = ((reindex_nodes meso_nodes micro_nodes nsm nsmi lsm).1,
        (reindex_nodes meso_nodes micro_nodes nsm nsmi lsm).2,
        create_taz_nodes taz_df, mc, uc, nsm, nsmi, lsm) := by
  simp only [prepare_and_generate_connectors] at h
  split at h
  · exact Option.noConfusion h
  next nsm nsmi lsm hcs =>
    split at h
    · exact Option.noConfusion h
    next mc hmc =>
      split at h
      · exact Option.noConfusion h
      next uc huc =>
        exact ⟨nsm, nsmi, lsm, mc, uc, hcs, hmc, huc,
          (Option.some.inj h).symm⟩

theorem merge_inv (meso_links : List MesoLink)
    (meso_connector_links : List ConnectorLink)
    (micro_links : List MicroLink)
    (micro_connector_links : List ConnectorLink)
    (meso_nodes : List MesoNode) (micro_nodes : List MicroNode)
    (taz_nodes : List TazNode)
    (nsm nsmi lsm : Int) (links : List FinalLink) (nodes : List FinalNode)
    (h : merge_network_layers meso_links meso_connector_links micro_links
      micro_connector_links meso_nodes micro_nodes taz_nodes nsm nsmi lsm
      = some (links, nodes)) :
    ∃ L maxC,
      colMax ((mesoLinksShifted meso_links nsm lsm).map
        (fun l => l.link_id)) = some L ∧
      micro_connector_links ≠ [] ∧
      colMax ((microConnShifted micro_connector_links L).map
        (fun c => c.link_id)) = some maxC ∧
      links = sortOn linkLt
        (meso_connector_links.map connToFinal
          ++ (mesoLinksShifted meso_links nsm lsm).map mesoLinkToFinal
          ++ (microConnShifted micro_connector_links L).map connToFinal
          ++ (microLinksShifted micro_links nsmi lsm (maxC + 1)).map
              microLinkToFinal) ∧
      nodes = sortOn nodeLt
        (taz_nodes.map tazNodeToFinal
          ++ meso_nodes.map mesoNodeToFinal
          ++ micro_nodes.map microNodeToFinal) := by
  simp only [merge_network_layers] at h
  split at h
  next L c cs hL =>
    split at h
    · exact Option.noConfusion h
    next maxC hmax =>
      have hp := Option.some.inj h
      simp only [Prod.ext_iff] at hp
      exact ⟨L, maxC, hL, by simp, hmax, hp.1.symm, hp.2.symm⟩
  next => exact Option.noConfusion h

theorem pipeline_inv (taz_df : List TazRow) (meso_nodes : List MesoNode)
    (meso_links : List MesoLink) (micro_nodes : List MicroNode)
    (micro_links : List MicroLink)
    (res : List FinalLink × List FinalNode)
    (h : pipeline taz_df meso_nodes meso_links micro_nodes micro_links
      = some res) :
    ∃ taz_micro_map nsm nsmi lsm mc uc,
      map_taz_to_micro_nodes (find_nearest_scc_nodes taz_df meso_nodes 1)
        meso_links micro_links micro_nodes = .ok taz_micro_map ∧
      compute_shifts (find_nearest_scc_nodes taz_df meso_nodes 1) meso_nodes
        = some (nsm, nsmi, lsm) ∧
      generate_meso_connectors (find_nearest_scc_nodes taz_df meso_nodes 1)
        (reindex_nodes meso_nodes micro_nodes nsm nsmi lsm).1 nsm
        = some mc ∧
      generate_micro_connectors (find_nearest_scc_nodes taz_df meso_nodes 1)
        taz_micro_map micro_nodes nsmi = some uc ∧
      merge_network_layers meso_links mc micro_links uc
        (reindex_nodes meso_nodes micro_nodes nsm nsmi lsm).1
        (reindex_nodes meso_nodes micro_nodes nsm nsmi lsm).2
        (create_taz_nodes (find_nearest_scc_nodes taz_df meso_nodes 1))
        nsm nsmi lsm = some res := by
  simp only [pipeline] at h
  split at h
  · exact Option.noConfusion h
  next tm htm =>
    split at h
    · exact Option.noConfusion h
    next um uu tn mc uc nsm nsmi lsm hprep =>
      obtain ⟨nsm2, nsmi2, lsm2, mc2, uc2, hcs, hmc, huc, hres⟩ :=
        prepare_inv _ _ _ _ _ hprep
      obtain ⟨e1, e2, e3, e4, e5, e6, e7, e8⟩ : um = _ ∧ uu = _ ∧ tn = _ ∧
          mc = mc2 ∧ uc = uc2 ∧ nsm = nsm2 ∧ nsmi = nsmi2 ∧ lsm = lsm2 := by
        simp only [Prod.ext_iff] at hres
        exact ⟨hres.1, hres.2.1, hres.2.2.1, hres.2.2.2.1, hres.2.2.2.2.1,
          hres.2.2.2.2.2.1, hres.2.2.2.2.2.2.1, hres.2.2.2.2.2.2.2⟩
      rw [e4, e5, e6, e7, e8, e1, e2, e3] at h
      exact ⟨tm, nsm2, nsmi2, lsm2, mc2, uc2, htm, hcs, hmc, huc, h⟩

theorem mesoLinksShifted_ids (ml : List MesoLink) (nsm lsm : Int) :
    (mesoLinksShifted ml nsm lsm).map (fun l => l.link_id)
      = (ml.map (fun l => l.link_id)).map (fun x => x + lsm) := by
  simp only [mesoLinksShifted, List.map_map]
  rfl

theorem microLinksShifted_ids (ul : List MicroLink)
    (nsmi lsm lsmicro : Int) :
    (microLinksShifted ul nsmi lsm lsmicro).map (fun l => l.link_id)
      = (ul.map (fun l => l.link_id)).map (fun x => x + lsmicro) := by
  simp only [microLinksShifted, List.map_map]
  rfl

theorem microConnShifted_ids (uc : List ConnectorLink) (L : Int) :
    (microConnShifted uc L).map (fun c => c.link_id)
      = (uc.map (fun c => c.link_id)).map (fun x => x + L) := by
  simp only [microConnShifted, List.map_map]
  rfl

theorem reindex_meso_ids (mn : List MesoNode) (un : List MicroNode)
    (nsm nsmi lsm : Int) :
    ((reindex_nodes mn un nsm nsmi lsm).1).map (fun n => n.node_id)
      = (mn.map (fun n => n.node_id)).map (fun x => x + nsm) := by
  simp only [reindex_nodes, List.map_map]
  rfl

theorem reindex_micro_ids (mn : List MesoNode) (un : List MicroNode)
    (nsm nsmi lsm : Int) :
    ((reindex_nodes mn un nsm nsmi lsm).2).map (fun n => n.node_id)
      = (un.map (fun n => n.node_id)).map (fun x => x + nsmi) := by
  simp only [reindex_nodes, List.map_map]
  rfl

/-- Every successful pipeline run decomposes the final link table, up to
the closing `sort_values`, into the four id blocks in the order the merged
id space uses them: meso connectors with ids `1..2T`, meso links with ids
`original + (2T+1)`, micro connectors with ids `L+1..L+K`, micro links
with ids `original + maxC + 1`. -/
theorem pipeline_link_blocks
    (taz_df : List TazRow) (mn : List MesoNode) (ml : List MesoLink)
    (un : List MicroNode) (ul : List MicroLink)
    (links : List FinalLink) (nodes : List FinalNode)
    (hp : pipeline taz_df mn ml un ul = some (links, nodes)) :
    ∃ (A B C D : List FinalLink) (L maxC : Int),
      links.Perm (A ++ B ++ C ++ D) ∧
      A.map (fun l => l.link_id) = intRange 1 (2 * taz_df.length) ∧
      (∀ a ∈ A, a.layer = Layer.meso ∧ a.link_type = some 0) ∧
      B.map (fun l => l.link_id)
        = (ml.map (fun l => l.link_id)).map
            (fun x => x + (2 * (taz_df.length : Int) + 1)) ∧
      (∀ b ∈ B, b.layer = Layer.meso ∧ b.link_type = none) ∧
      colMax (B.map (fun l => l.link_id)) = some L ∧
      C.map (fun l => l.link_id) = intRange (1 + L) C.length ∧
      C ≠ [] ∧
      (∀ c ∈ C, c.layer = Layer.micro ∧ c.link_type = some 0) ∧
      colMax (C.map (fun l => l.link_id)) = some maxC ∧
      D.map (fun l => l.link_id)
        = (ul.map (fun l => l.link_id)).map (fun x => x + (maxC + 1)) ∧
      (∀ d ∈ D, d.layer = Layer.micro ∧ d.link_type = none) := by
  obtain ⟨tm, nsm, nsmi, lsm, mc, uc, htm, hcs, hmc, huc, hmerge⟩ :=
    pipeline_inv _ _ _ _ _ _ hp
  obtain ⟨L, maxC, hL, hucne, hmax, hlinks, hnodes⟩ :=
    merge_inv _ _ _ _ _ _ _ _ _ _ _ _ hmerge
  obtain ⟨mt, mm, hmt, hmm, e1, e2, e3⟩ := compute_shifts_inv _ _ _ _ _ hcs
  have hmc' : genMesoConnAux
      (reindex_nodes mn un nsm nsmi lsm).1 nsm 1
      (find_nearest_scc_nodes taz_df mn 1) = some mc := hmc
  obtain ⟨hmcids, hmclay⟩ := genMesoConnAux_ids _ _ _ _ _ hmc'
  have huc' : genMicroConnAux (find_nearest_scc_nodes taz_df mn 1) nsmi
      [] 1 tm = some uc := huc
  obtain ⟨hucids, huclay⟩ := genMicroConnAux_ids _ _ _ _ _ _ huc'
  have hTlen : (find_nearest_scc_nodes taz_df mn 1).length
      = taz_df.length := find_nearest_length _ _ _
  refine ⟨mc.map connToFinal,
    (mesoLinksShifted ml nsm lsm).map mesoLinkToFinal,
    (microConnShifted uc L).map connToFinal,
    (microLinksShifted ul nsmi lsm (maxC + 1)).map microLinkToFinal,
    L, maxC, ?_, ?_, ?_, ?_, ?_, ?_, ?_, ?_, ?_, ?_, ?_, ?_⟩
  · rw [hlinks]
    exact sortOn_perm _ _
  · have : (mc.map connToFinal).map (fun l => l.link_id)
        = mc.map (fun c => c.link_id) := by
      simp only [List.map_map]
      rfl
    rw [this, hmcids, hTlen]
  · intro a ha
    obtain ⟨c, hc, rfl⟩ := List.mem_map.mp ha
    obtain ⟨hl1, hl2⟩ := hmclay c hc
    exact ⟨hl1, by simp [connToFinal, hl2]⟩
  · have : ((mesoLinksShifted ml nsm lsm).map mesoLinkToFinal).map
        (fun l => l.link_id)
        = (mesoLinksShifted ml nsm lsm).map (fun l => l.link_id) := by
      simp only [List.map_map]
      rfl
    rw [this, mesoLinksShifted_ids, e3, hTlen]
  · intro b hb
    obtain ⟨l, hl, rfl⟩ := List.mem_map.mp hb
    exact ⟨rfl, rfl⟩
  · have : ((mesoLinksShifted ml nsm lsm).map mesoLinkToFinal).map
        (fun l => l.link_id)
        = (mesoLinksShifted ml nsm lsm).map (fun l => l.link_id) := by
      simp only [List.map_map]
      rfl
    rw [this]
    exact hL
  · have h1 : ((microConnShifted uc L).map connToFinal).map
        (fun l => l.link_id)
        = (microConnShifted uc L).map (fun c => c.link_id) := by
      simp only [List.map_map]
      rfl
    have h2 : ((microConnShifted uc L).map connToFinal).length
        = uc.length := by
      simp [microConnShifted]
    rw [h1, h2, microConnShifted_ids, hucids, map_add_intRange]
  · cases uc with
    | nil => exact absurd rfl hucne
    | cons c cs => simp [microConnShifted]
  · intro c hc
    obtain ⟨c0, hc0, rfl⟩ := List.mem_map.mp hc
    obtain ⟨c1, hc1, rfl⟩ := List.mem_map.mp hc0
    obtain ⟨hl1, hl2⟩ := huclay c1 hc1
    refine ⟨?_, ?_⟩
    · simpa [microConnShifted, connToFinal] using hl1
    · simp [microConnShifted, connToFinal, hl2]
  · have h1 : ((microConnShifted uc L).map connToFinal).map
        (fun l => l.link_id)
        = (microConnShifted uc L).map (fun c => c.link_id) := by
      simp only [List.map_map]
      rfl
    rw [h1]
    exact hmax
  · have : ((microLinksShifted ul nsmi lsm (maxC + 1)).map
        microLinkToFinal).map (fun l => l.link_id)
        = (microLinksShifted ul nsmi lsm (maxC + 1)).map
            (fun l => l.link_id) := by
      simp only [List.map_map]
      rfl
    rw [this, microLinksShifted_ids]
  · intro d hd
    obtain ⟨l, hl, rfl⟩ := List.mem_map.mp hd
    exact ⟨rfl, rfl⟩

/-- Every successful pipeline run decomposes the final node table, up to
the closing `sort_values`, into the TAZ block (ids `TAZ_clean`), the meso
block (ids `original + (max_taz_id + 1)`) and the micro block (ids
`original + (max_taz_id + 1 + max_meso_id)`); every non-TAZ row has NaN
coordinates, its source frame naming them `x_coord`/`y_coord`. -/
theorem pipeline_node_blocks
    (taz_df : List TazRow) (mn : List MesoNode) (ml : List MesoLink)
    (un : List MicroNode) (ul : List MicroLink)
    (links : List FinalLink) (nodes : List FinalNode)
    (hp : pipeline taz_df mn ml un ul = some (links, nodes)) :
    ∃ (X Y Z : List FinalNode) (mt mm : Int),
      nodes.Perm (X ++ Y ++ Z) ∧
      X.map (fun n => n.node_id) = taz_df.map (fun t => t.taz_clean) ∧
      (∀ x ∈ X, x.layer = Layer.taz) ∧
      colMax (taz_df.map (fun t => t.taz_clean)) = some mt ∧
      Y.map (fun n => n.node_id)
        = (mn.map (fun n => n.node_id)).map (fun v => v + (mt + 1)) ∧
      (∀ y ∈ Y, y.layer = Layer.meso ∧ y.x = none ∧ y.y = none) ∧
      colMax (mn.map (fun n => n.node_id)) = some mm ∧
      Z.map (fun n => n.node_id)
        = (un.map (fun n => n.node_id)).map (fun v => v + (mt + 1 + mm)) ∧
      (∀ z ∈ Z, z.layer = Layer.micro ∧ z.x = none ∧ z.y = none) := by
  obtain ⟨tm, nsm, nsmi, lsm, mc, uc, htm, hcs, hmc, huc, hmerge⟩ :=
    pipeline_inv _ _ _ _ _ _ hp
  obtain ⟨L, maxC, hL, hucne, hmax, hlinks, hnodes⟩ :=
    merge_inv _ _ _ _ _ _ _ _ _ _ _ _ hmerge
  obtain ⟨mt, mm, hmt, hmm, e1, e2, e3⟩ := compute_shifts_inv _ _ _ _ _ hcs
  refine ⟨(create_taz_nodes (find_nearest_scc_nodes taz_df mn 1)).map
      tazNodeToFinal,
    ((reindex_nodes mn un nsm nsmi lsm).1).map mesoNodeToFinal,
    ((reindex_nodes mn un nsm nsmi lsm).2).map microNodeToFinal,
    mt, mm, ?_, ?_, ?_, ?_, ?_, ?_, hmm, ?_, ?_⟩
  · rw [hnodes]
    exact sortOn_perm _ _
  · have h1 : ((create_taz_nodes (find_nearest_scc_nodes taz_df mn 1)).map
        tazNodeToFinal).map (fun n => n.node_id)
        = (find_nearest_scc_nodes taz_df mn 1).map
            (fun t => t.taz_clean) := by
      simp only [create_taz_nodes, List.map_map]
      rfl
    rw [h1, find_nearest_taz_ids]
  · intro x hx
    obtain ⟨n, hn, rfl⟩ := List.mem_map.mp hx
    rfl
  · rw [← find_nearest_taz_ids taz_df mn 1]
    exact hmt
  · have h1 : (((reindex_nodes mn un nsm nsmi lsm).1).map
        mesoNodeToFinal).map (fun n => n.node_id)
        = ((reindex_nodes mn un nsm nsmi lsm).1).map
            (fun n => n.node_id) := by
      simp only [List.map_map]
      rfl
    rw [h1, reindex_meso_ids, e1]
  · intro y hy
    obtain ⟨n, hn, rfl⟩ := List.mem_map.mp hy
    exact ⟨rfl, rfl, rfl⟩
  · have h1 : (((reindex_nodes mn un nsm nsmi lsm).2).map
        microNodeToFinal).map (fun n => n.node_id)
        = ((reindex_nodes mn un nsm nsmi lsm).2).map
            (fun n => n.node_id) := by
      simp only [List.map_map]
      rfl
    rw [h1, reindex_micro_ids, e2]
  · intro z hz
    obtain ⟨n, hn, rfl⟩ := List.mem_map.mp hz
    exact ⟨rfl, rfl, rfl⟩

/-- Global uniqueness of the final link ids, provided the input link ids
are unique within each layer and non-negative. -/
theorem pipeline_links_nodup
    (taz_df : List TazRow) (mn : List MesoNode) (ml : List MesoLink)
    (un : List MicroNode) (ul : List MicroLink)
    (links : List FinalLink) (nodes : List FinalNode)
    (hml : (ml.map (fun l => l.link_id)).Nodup)
    (hml0 : ∀ l ∈ ml, 0 ≤ l.link_id)
    (hul : (ul.map (fun l => l.link_id)).Nodup)
    (hul0 : ∀ l ∈ ul, 0 ≤ l.link_id)
    (hp : pipeline taz_df mn ml un ul = some (links, nodes)) :
    (links.map (fun l => l.link_id)).Nodup := by
  obtain ⟨A, B, C, D, L, maxC, hperm, hA, hAlay, hB, hBlay, hBL, hC, hCne,
    hClay, hCmax, hD, hDlay⟩ := pipeline_link_blocks _ _ _ _ _ _ _ hp
  rw [(hperm.map (fun l => l.link_id)).nodup_iff]
  rw [List.map_append, List.map_append, List.map_append,
    List.append_assoc, List.append_assoc, hA, hB, hC, hD]
  rw [hB] at hBL
  rw [hC] at hCmax
  have hAmem : ∀ a ∈ intRange 1 (2 * taz_df.length),
      a ≤ 2 * (taz_df.length : Int) := by
    intro a ha
    have h := mem_intRange.mp ha
    omega
  have hBmem : ∀ b ∈ (ml.map (fun l => l.link_id)).map
      (fun x => x + (2 * (taz_df.length : Int) + 1)),
      2 * (taz_df.length : Int) + 1 ≤ b := by
    intro b hb
    obtain ⟨o, ho, rfl⟩ := List.mem_map.mp hb
    obtain ⟨l0, hl0, rfl⟩ := List.mem_map.mp ho
    have := hml0 l0 hl0
    omega
  have hBle : ∀ b ∈ (ml.map (fun l => l.link_id)).map
      (fun x => x + (2 * (taz_df.length : Int) + 1)), b ≤ L :=
    fun b hb => colMax_le hBL b hb
  have hLlb : 2 * (taz_df.length : Int) + 1 ≤ L :=
    hBmem L (colMax_mem hBL)
  have hCmem : ∀ c ∈ intRange (1 + L) C.length, 1 + L ≤ c :=
    fun c hc => (mem_intRange.mp hc).1
  have hCle : ∀ c ∈ intRange (1 + L) C.length, c ≤ maxC :=
    fun c hc => colMax_le hCmax c hc
  have hmaxClb : 1 + L ≤ maxC := hCmem maxC (colMax_mem hCmax)
  have hDmem : ∀ d ∈ (ul.map (fun l => l.link_id)).map
      (fun x => x + (maxC + 1)), maxC + 1 ≤ d := by
    intro d hd
    obtain ⟨o, ho, rfl⟩ := List.mem_map.mp hd
    obtain ⟨l0, hl0, rfl⟩ := List.mem_map.mp ho
    have := hul0 l0 hl0
    omega
  refine List.nodup_append.mpr ⟨nodup_intRange 1 (2 * taz_df.length),
    List.nodup_append.mpr ⟨hml.map (add_left_injective _),
      List.nodup_append.mpr ⟨nodup_intRange (1 + L) C.length,
        hul.map (add_left_injective _), ?_⟩, ?_⟩, ?_⟩
  · exact disjoint_of_bound maxC hCle
      (fun d hd => by have := hDmem d hd; omega)
  · refine disjoint_of_bound L hBle ?_
    intro y hy
    rcases List.mem_append.mp hy with hy | hy
    · have := hCmem y hy
      omega
    · have := hDmem y hy
      omega
  · refine disjoint_of_bound (2 * (taz_df.length : Int)) hAmem ?_
    intro y hy
    rcases List.mem_append.mp hy with hy | hy
    · have := hBmem y hy
      omega
    · rcases List.mem_append.mp hy with hy | hy
      · have := hCmem y hy
        omega
      · have := hDmem y hy
        omega

/-- Global uniqueness of the final node ids, provided TAZ ids are unique,
the per-layer node ids are unique, meso node ids are non-negative and
micro node ids are strictly positive. -/
theorem pipeline_nodes_nodup
    (taz_df : List TazRow) (mn : List MesoNode) (ml : List MesoLink)
    (un : List MicroNode) (ul : List MicroLink)
    (links : List FinalLink) (nodes : List FinalNode)
    (hT : (taz_df.map (fun t => t.taz_clean)).Nodup)
    (hM : (mn.map (fun n => n.node_id)).Nodup)
    (hM0 : ∀ n ∈ mn, 0 ≤ n.node_id)
    (hU : (un.map (fun n => n.node_id)).Nodup)
    (hU1 : ∀ n ∈ un, 1 ≤ n.node_id)
    (hp : pipeline taz_df mn ml un ul = some (links, nodes)) :
    (nodes.map (fun n => n.node_id)).Nodup := by
  obtain ⟨X, Y, Z, mt, mm, hperm, hX, hXlay, hmt, hY, hYlay, hmm, hZ,
    hZlay⟩ := pipeline_node_blocks _ _ _ _ _ _ _ hp
  rw [(hperm.map (fun n => n.node_id)).nodup_iff]
  rw [List.map_append, List.map_append, List.append_assoc, hX, hY, hZ]
  have hmm0 : 0 ≤ mm := by
    have hmem := colMax_mem hmm
    obtain ⟨n0, hn0, he⟩ := List.mem_map.mp hmem
    have := hM0 n0 hn0
    omega
  have hXle : ∀ x ∈ taz_df.map (fun t => t.taz_clean), x ≤ mt :=
    fun x hx => colMax_le hmt x hx
  have hYmem : ∀ y ∈ (mn.map (fun n => n.node_id)).map
      (fun v => v + (mt + 1)), mt + 1 ≤ y ∧ y ≤ mt + 1 + mm := by
    intro y hy
    obtain ⟨o, ho, rfl⟩ := List.mem_map.mp hy
    obtain ⟨n0, hn0, rfl⟩ := List.mem_map.mp ho
    have h1 := hM0 n0 hn0
    have h2 := colMax_le hmm n0.node_id (List.mem_map.mpr ⟨n0, hn0, rfl⟩)
    omega
  have hZmem : ∀ z ∈ (un.map (fun n => n.node_id)).map
      (fun v => v + (mt + 1 + mm)), mt + 1 + mm + 1 ≤ z := by
    intro z hz
    obtain ⟨o, ho, rfl⟩ := List.mem_map.mp hz
    obtain ⟨n0, hn0, rfl⟩ := List.mem_map.mp ho
    have := hU1 n0 hn0
    omega
  refine List.nodup_append.mpr ⟨hT,
    List.nodup_append.mpr ⟨hM.map (add_left_injective _),
      hU.map (add_left_injective _), ?_⟩, ?_⟩
  · exact disjoint_of_bound (mt + 1 + mm)
      (fun y hy => (hYmem y hy).2)
      (fun z hz => by have := hZmem z hz; omega)
  · refine disjoint_of_bound mt hXle ?_
    intro y hy
    rcases List.mem_append.mp hy with hy | hy
    · have := (hYmem y hy).1
      omega
    · have := hZmem y hy
      omega

theorem contains_iff_mem_int (l : List Int) (a : Int) :
    l.contains a = true ↔ a ∈ l := by
  simp

theorem distLt_asym (a b : MesoNode × Int) :
    distLt a b = true → distLt b a = false := by
  simp only [distLt, decide_eq_true_eq, decide_eq_false_iff_not]
  omega

theorem distLt_negtrans (a b c : MesoNode × Int) :
    distLt b a = false → distLt c b = false → distLt c a = false := by
  simp only [distLt, decide_eq_false_iff_not]
  omega

theorem map_taz_cons_inv (r : TazCand) (rs : List TazCand)
    (ml : List MesoLink) (ul : List MicroLink) (un : List MicroNode)
    (rows : List TazMicroRow)
    (h : map_taz_to_micro_nodes (r :: rs) ml ul un = .ok rows) :
    ∃ cand rest, r.candidates.head? = some cand ∧
      map_taz_to_micro_nodes rs ml ul un = .ok rest ∧
      rows = (un.filter (fun n =>
          (find_start_micro_nodes cand ml ul).contains n.node_id)).map
        (fun n =>
          (⟨r.taz_clean, n.node_id, n.x_coord, n.y_coord⟩ : TazMicroRow))
        ++ rest := by
  simp only [map_taz_to_micro_nodes] at h
  split at h
  · exact Except.noConfusion h
  next cand hc =>
    split at h
    · exact Except.noConfusion h
    next rest hr =>
      exact ⟨cand, rest, hc, hr, (Except.ok.inj h).symm⟩

/-- C6: `find_start_micro_nodes` returns exactly the node ids occurring as
a `from_node_id` and never as a `to_node_id` within the subset of micro
links whose `meso_link_id` belongs to the given node's outgoing meso
links; with no outgoing meso links, or none subdivided into micro links,
the result is the empty list. -/
theorem C6_find_start_micro_nodes_spec (meso_node_id : Int)
    (meso_links : List MesoLink) (micro_links : List MicroLink) :
    (∀ x : Int,
      x ∈ find_start_micro_nodes meso_node_id meso_links micro_links ↔
      ((∃ l ∈ microSubset meso_node_id meso_links micro_links,
          l.from_node_id = x) ∧
        ∀ l ∈ microSubset meso_node_id meso_links micro_links,
          l.to_node_id ≠ x)) ∧
    (meso_links.filter (fun l => l.from_node_id == meso_node_id) = [] →
      find_start_micro_nodes meso_node_id meso_links micro_links = []) ∧
    (microSubset meso_node_id meso_links micro_links = [] →
      find_start_micro_nodes meso_node_id meso_links micro_links = []) := by
  have h3 : microSubset meso_node_id meso_links micro_links = [] →
      find_start_micro_nodes meso_node_id meso_links micro_links = [] := by
    intro hsub
    simp [find_start_micro_nodes, hsub]
  refine ⟨?_, ?_, h3⟩
  · intro x
    simp only [find_start_micro_nodes, List.mem_filter, List.mem_dedup,
      List.mem_map]
    constructor
    · rintro ⟨⟨l, hl, rfl⟩, hnc⟩
      refine ⟨⟨l, hl, rfl⟩, ?_⟩
      intro l2 hl2 heq
      rw [Bool.not_eq_true'] at hnc
      have hnm : l.from_node_id ∉ (microSubset meso_node_id meso_links
          micro_links).map (fun l => l.to_node_id) := by
        intro hmem
        rw [(contains_iff_mem_int _ _).mpr hmem] at hnc
        exact Bool.noConfusion hnc
      exact hnm (List.mem_map.mpr ⟨l2, hl2, heq⟩)
    · rintro ⟨⟨l, hl, rfl⟩, hall⟩
      refine ⟨⟨l, hl, rfl⟩, ?_⟩
      rw [Bool.not_eq_true']
      cases hcb : ((microSubset meso_node_id meso_links micro_links).map
          (fun l => l.to_node_id)).contains l.from_node_id with
      | false => rfl
      | true =>
        have hmem := (contains_iff_mem_int _ _).mp hcb
        obtain ⟨l2, hl2, heq⟩ := List.mem_map.mp hmem
        exact absurd heq (hall l2 hl2)
  · intro h
    refine h3 ?_
    simp [microSubset, outgoingMesoLinkIds, h]

/-- C10: `map_taz_to_micro_nodes` emits a row only for entry node ids that
have a row in the micro node table (carrying that row's coordinates and
the TAZ's id); an entry id absent from the micro node table yields no row,
and absence never causes an error — the mapping succeeds whenever every
TAZ row carries its candidate column. -/
theorem C10_map_taz_micro_membership (taz_candidates : List TazCand)
    (meso_links : List MesoLink) (micro_links : List MicroLink)
    (micro_nodes : List MicroNode) :
    (∀ rows, map_taz_to_micro_nodes taz_candidates meso_links micro_links
        micro_nodes = .ok rows →
      ∀ r ∈ rows,
        (∃ n ∈ micro_nodes, n.node_id = r.micro_node_id ∧
          n.x_coord = r.x_coord ∧ n.y_coord = r.y_coord) ∧
        ∃ t ∈ taz_candidates, ∃ cand, t.candidates.head? = some cand ∧
          r.taz_id = t.taz_clean ∧
          r.micro_node_id ∈ find_start_micro_nodes cand meso_links
            micro_links) ∧
    ((∀ t ∈ taz_candidates, t.candidates ≠ []) →
      ∃ rows, map_taz_to_micro_nodes taz_candidates meso_links micro_links
        micro_nodes = .ok rows) := by
  induction taz_candidates with
  | nil =>
    constructor
    · intro rows h r hr
      simp only [map_taz_to_micro_nodes] at h
      rw [← Except.ok.inj h] at hr
      exact absurd hr (List.not_mem_nil r)
    · intro _
      exact ⟨[], rfl⟩
  | cons t ts ih =>
    constructor
    · intro rows h r hr
      obtain ⟨cand, rest, hc, hrest, hrows⟩ :=
        map_taz_cons_inv t ts meso_links micro_links micro_nodes rows h
      subst hrows
      rcases List.mem_append.mp hr with hr | hr
      · obtain ⟨n, hn, rfl⟩ := List.mem_map.mp hr
        have hnf := List.mem_filter.mp hn
        exact ⟨⟨n, hnf.1, rfl, rfl, rfl⟩, t, List.mem_cons_self t ts, cand,
          hc, rfl, (contains_iff_mem_int _ _).mp hnf.2⟩
      · obtain ⟨hex, t2, ht2, cand2, hc2, heq, hmem⟩ := ih.1 rest hrest r hr
        exact ⟨hex, t2, List.mem_cons_of_mem t ht2, cand2, hc2, heq, hmem⟩
    · intro hall
      obtain ⟨rest, hrest⟩ := ih.2
        (fun t2 ht2 => hall t2 (List.mem_cons_of_mem t ht2))
      obtain ⟨cand, hc⟩ : ∃ cand, t.candidates.head? = some cand := by
        cases hcand : t.candidates with
        | nil => exact absurd hcand (hall t (List.mem_cons_self t ts))
        | cons c cs => exact ⟨c, rfl⟩
      refine ⟨(micro_nodes.filter (fun n =>
          (find_start_micro_nodes cand meso_links micro_links).contains
            n.node_id)).map (fun n =>
          (⟨t.taz_clean, n.node_id, n.x_coord, n.y_coord⟩ : TazMicroRow))
        ++ rest, ?_⟩
      simp only [map_taz_to_micro_nodes, hc, hrest]

/-- C8: both connector generators emit forward/reverse pairs — swapped
endpoints, reversed geometry, identical length — and hence an even number
of rows, on every run that completes. -/
theorem C8_connector_pairs (taz1 : List TazCand) (mn : List MesoNode)
    (nsm : Int) (taz2 : List TazCand) (tm : List TazMicroRow)
    (un : List MicroNode) (nsmi : Int) (mc uc : List ConnectorLink) :
    (generate_meso_connectors taz1 mn nsm = some mc →
      PairedConn mc ∧ mc.length % 2 = 0) ∧
    (generate_micro_connectors taz2 tm un nsmi = some uc →
      PairedConn uc ∧ uc.length % 2 = 0) := by
  constructor
  · intro h
    have hp := genMesoConnAux_paired mn nsm taz1 1 mc h
    exact ⟨hp, hp.even_length⟩
  · intro h
    have hp := genMicroConnAux_paired taz2 nsmi tm [] 1 uc h
    exact ⟨hp, hp.even_length⟩

/-- C9: `generate_meso_connectors` hands out local link ids exactly
`1..2T` in emission order; `compute_shifts` reserves exactly that space by
`link_shift_meso = 2T+1`; `merge_network_layers` adds the shift to every
meso link id; so every shifted meso link id with non-negative original
value strictly exceeds every meso-connector link id. -/
theorem C9_id_allocation (taz_df : List TazCand) (mn0 mn : List MesoNode)
    (nsm0 : Int) (mc : List ConnectorLink) (nsm nsmi lsm : Int)
    (ml : List MesoLink) :
    (generate_meso_connectors taz_df mn0 nsm0 = some mc →
      mc.map (fun c => c.link_id) = intRange 1 (2 * taz_df.length)) ∧
    (compute_shifts taz_df mn = some (nsm, nsmi, lsm) →
      lsm = 2 * (taz_df.length : Int) + 1) ∧
    ((mesoLinksShifted ml nsm lsm).map (fun l => l.link_id)
      = ml.map (fun l => l.link_id + lsm)) ∧
    (generate_meso_connectors taz_df mn0 nsm0 = some mc →
      compute_shifts taz_df mn = some (nsm, nsmi, lsm) →
      ∀ m ∈ ml, 0 ≤ m.link_id → ∀ c ∈ mc, c.link_id < m.link_id + lsm) := by
  have hids : generate_meso_connectors taz_df mn0 nsm0 = some mc →
      mc.map (fun c => c.link_id) = intRange 1 (2 * taz_df.length) :=
    fun h => (genMesoConnAux_ids mn0 nsm0 taz_df 1 mc h).1
  refine ⟨hids, ?_, ?_, ?_⟩
  · intro h
    obtain ⟨mt, mm, h1, h2, e1, e2, e3⟩ := compute_shifts_inv _ _ _ _ _ h
    exact e3
  · rw [mesoLinksShifted_ids]
    simp only [List.map_map]
    rfl
  · intro hg hcs m hm hm0 c hc
    obtain ⟨mt, mm, h1, h2, e1, e2, e3⟩ := compute_shifts_inv _ _ _ _ _ hcs
    have hcid : c.link_id ∈ intRange 1 (2 * taz_df.length) := by
      rw [← hids hg]
      exact List.mem_map_of_mem _ hc
    have hb := mem_intRange.mp hcid
    rw [e3]
    omega

/-- C5: for every TAZ row and `num_candidates = k ≥ 1`,
`find_nearest_scc_nodes` appends, per TAZ, the node ids of the
`min(k, |scc_id == 0 pool|)` rows closest to the TAZ, drawn only from that
pool, in non-decreasing (squared) distance order, ties kept in the pool's
row order (the sort is stable: the subsequence at each distance value is
exactly the pool's subsequence at that value). -/
theorem C5_nearest_candidates (taz_df : List TazRow)
    (meso_nodes : List MesoNode) (k : Nat) (hk : 1 ≤ k) :
    find_nearest_scc_nodes taz_df meso_nodes k = taz_df.map (fun t =>
      { taz_clean := t.taz_clean, x_coord := t.x_coord,
        y_coord := t.y_coord,
        candidates := (nearestRows t meso_nodes k).map
          (fun p => p.1.node_id) }) ∧
    ∀ t ∈ taz_df,
      (nearestRows t meso_nodes k).length
          = min k (sccZeroNodes meso_nodes).length ∧
      (∀ p ∈ nearestRows t meso_nodes k, p.1 ∈ sccZeroNodes meso_nodes) ∧
      (nearestRows t meso_nodes k).Pairwise (fun a b => a.2 ≤ b.2) ∧
      ∀ d : Int,
        (sortOn distLt (distRows t (sccZeroNodes meso_nodes))).filter
          (fun p => p.2 == d)
        = (distRows t (sccZeroNodes meso_nodes)).filter
            (fun p => p.2 == d) := by
  refine ⟨rfl, ?_⟩
  intro t ht
  refine ⟨?_, ?_, ?_, ?_⟩
  · simp [nearestRows, List.length_take, length_sortOn, distRows]
  · intro p hp
    have h1 : p ∈ sortOn distLt (distRows t (sccZeroNodes meso_nodes)) :=
      (List.take_sublist _ _).subset hp
    have h2 := (mem_sortOn _ _ _).mp h1
    obtain ⟨n, hn, rfl⟩ := List.mem_map.mp h2
    exact hn
  · have hpw := pairwise_sortOn distLt distLt_asym distLt_negtrans
      (distRows t (sccZeroNodes meso_nodes))
    have hpw2 : (sortOn distLt (distRows t (sccZeroNodes
        meso_nodes))).Pairwise (fun a b => a.2 ≤ b.2) := by
      refine hpw.imp ?_
      intro a b h
      simp only [distLt, decide_eq_false_iff_not] at h
      omega
    exact hpw2.sublist (List.take_sublist _ _)
  · intro d
    refine filter_sortOn distLt (fun p => p.2 == d) ?_ _
    intro a b ha hb
    have h1 : a.2 = d := by simpa using ha
    have h2 : b.2 = d := by simpa using hb
    simp only [distLt, decide_eq_false_iff_not]
    omega

/-- C1 (amended): on every completed pipeline run whose input ids are
unique within each layer, with non-negative meso node/link and micro link
ids and strictly positive micro node ids, the final link ids and the final
node ids are globally unique.  (As stated over all completed runs the
claim fails: a micro node id 0 lands on the maximal shifted meso node id —
see the counterexample.) -/
theorem C1_unique_ids (taz_df : List TazRow) (mn : List MesoNode)
    (ml : List MesoLink) (un : List MicroNode) (ul : List MicroLink)
    (links : List FinalLink) (nodes : List FinalNode)
    (hT : (taz_df.map (fun t => t.taz_clean)).Nodup)
    (hM : (mn.map (fun n => n.node_id)).Nodup)
    (hM0 : ∀ n ∈ mn, 0 ≤ n.node_id)
    (hU : (un.map (fun n => n.node_id)).Nodup)
    (hU1 : ∀ n ∈ un, 1 ≤ n.node_id)
    (hml : (ml.map (fun l => l.link_id)).Nodup)
    (hml0 : ∀ l ∈ ml, 0 ≤ l.link_id)
    (hul : (ul.map (fun l => l.link_id)).Nodup)
    (hul0 : ∀ l ∈ ul, 0 ≤ l.link_id)
    (hp : pipeline taz_df mn ml un ul = some (links, nodes)) :
    (links.map (fun l => l.link_id)).Nodup ∧
    (nodes.map (fun n => n.node_id)).Nodup :=
  ⟨pipeline_links_nodup _ _ _ _ _ _ _ hml hml0 hul hul0 hp,
   pipeline_nodes_nodup _ _ _ _ _ _ _ hT hM hM0 hU hU1 hp⟩

/-- C1 counterexample: a completed run (micro node ids 0 and 1) whose
final node table repeats node id 13: the shifted micro node 0 collides
with the maximal shifted meso node. -/
theorem C1_counterexample :
    (pipeline gTaz gMesoNodes gMesoLinks bMicroNodes bMicroLinks).isSome
      = true ∧
    ¬ (resultNodeIds
        (pipeline gTaz gMesoNodes gMesoLinks bMicroNodes bMicroLinks)).Nodup
    := by
  constructor
  · decide
  · decide

/-- C1 witness: the well-formed concrete run satisfies every hypothesis
and its final ids are unique. -/
theorem C1_unique_ids_witness :
    (gOut.1.map (fun l => l.link_id)).Nodup ∧
    (gOut.2.map (fun n => n.node_id)).Nodup :=
  C1_unique_ids gTaz gMesoNodes gMesoLinks gMicroNodes gMicroLinks
    gOut.1 gOut.2 (by decide) (by decide) (by decide) (by decide)
    (by decide) (by decide) (by decide) (by decide) (by decide) (by decide)

/-- C2 (amended): final link ids are allocated in the fixed sequence meso
connectors (bottom), then meso links, then micro connectors, then micro
links — each block strictly above the previous block's maximum (given
non-negative original link ids); the spec's order, with meso connectors
renumbered above the meso links, is refuted by the counterexample. -/
theorem C2_link_block_order (taz_df : List TazRow) (mn : List MesoNode)
    (ml : List MesoLink) (un : List MicroNode) (ul : List MicroLink)
    (links : List FinalLink) (nodes : List FinalNode)
    (hml0 : ∀ l ∈ ml, 0 ≤ l.link_id)
    (hul0 : ∀ l ∈ ul, 0 ≤ l.link_id)
    (hp : pipeline taz_df mn ml un ul = some (links, nodes)) :
    ∀ a ∈ links, ∀ b ∈ links, linkBlock a < linkBlock b →
      a.link_id < b.link_id := by
  obtain ⟨A, B, C, D, L, maxC, hperm, hA, hAlay, hB, hBlay, hBL, hC, hCne,
    hClay, hCmax, hD, hDlay⟩ := pipeline_link_blocks _ _ _ _ _ _ _ hp
  have hLlb : 2 * (taz_df.length : Int) + 1 ≤ L := by
    have hmem := colMax_mem hBL
    rw [hB] at hmem
    obtain ⟨o, ho, he⟩ := List.mem_map.mp hmem
    obtain ⟨l0, hl0, rfl⟩ := List.mem_map.mp ho
    have := hml0 l0 hl0
    omega
  have hmaxClb : 1 + L ≤ maxC := by
    have hmem := colMax_mem hCmax
    rw [hC] at hmem
    exact (mem_intRange.mp hmem).1
  have haux : ∀ x ∈ A ++ B ++ C ++ D,
      (linkBlock x = 0 ∧ 1 ≤ x.link_id ∧
        x.link_id ≤ 2 * (taz_df.length : Int)) ∨
      (linkBlock x = 1 ∧ 2 * (taz_df.length : Int) + 1 ≤ x.link_id ∧
        x.link_id ≤ L) ∨
      (linkBlock x = 2 ∧ 1 + L ≤ x.link_id ∧ x.link_id ≤ maxC) ∨
      (linkBlock x = 3 ∧ maxC + 1 ≤ x.link_id) := by
    intro x hx
    rcases List.mem_append.mp hx with hx3 | hxD
    · rcases List.mem_append.mp hx3 with hx2 | hxC
      · rcases List.mem_append.mp hx2 with hxA | hxB
        · left
          obtain ⟨h1, h2⟩ := hAlay x hxA
          have hid : x.link_id ∈ intRange 1 (2 * taz_df.length) := by
            rw [← hA]
            exact List.mem_map_of_mem _ hxA
          have hb := mem_intRange.mp hid
          exact ⟨by simp [linkBlock, h1, h2], by omega, by omega⟩
        · right; left
          obtain ⟨h1, h2⟩ := hBlay x hxB
          have hid : x.link_id ∈ B.map (fun l => l.link_id) :=
            List.mem_map_of_mem _ hxB
          have hle : x.link_id ≤ L := colMax_le hBL _ hid
          rw [hB] at hid
          obtain ⟨o, ho, he⟩ := List.mem_map.mp hid
          obtain ⟨l0, hl0, rfl⟩ := List.mem_map.mp ho
          have h0 := hml0 l0 hl0
          exact ⟨by simp [linkBlock, h1, h2], by omega, hle⟩
      · right; right; left
        obtain ⟨h1, h2⟩ := hClay x hxC
        have hid : x.link_id ∈ C.map (fun l => l.link_id) :=
          List.mem_map_of_mem _ hxC
        have hle : x.link_id ≤ maxC := colMax_le hCmax _ hid
        rw [hC] at hid
        have hb := mem_intRange.mp hid
        exact ⟨by simp [linkBlock, h1, h2], hb.1, hle⟩
    · right; right; right
      obtain ⟨h1, h2⟩ := hDlay x hxD
      have hid : x.link_id ∈ D.map (fun l => l.link_id) :=
        List.mem_map_of_mem _ hxD
      rw [hD] at hid
      obtain ⟨o, ho, he⟩ := List.mem_map.mp hid
      obtain ⟨l0, hl0, rfl⟩ := List.mem_map.mp ho
      have h0 := hul0 l0 hl0
      exact ⟨by simp [linkBlock, h1, h2], by omega⟩
  intro a ha b hb hlt
  have ha2 := haux a (hperm.mem_iff.mp ha)
  have hb2 := haux b (hperm.mem_iff.mp hb)
  rcases ha2 with ⟨e1, f1, g1⟩ | ⟨e1, f1, g1⟩ | ⟨e1, f1, g1⟩ | ⟨e1, f1⟩ <;>
    rcases hb2 with ⟨e2, f2, g2⟩ | ⟨e2, f2, g2⟩ | ⟨e2, f2, g2⟩ | ⟨e2, f2⟩ <;>
    omega

/-- C2 counterexample: in the concrete run the meso-connector block holds
id 1 while the maximal final meso link id is 5, so meso-connector ids are
not strictly greater than the maximal meso link id. -/
theorem C2_counterexample :
    colMax (selectLinkIds
      (fun l => l.layer == Layer.meso && l.link_type == none)
      (pipeline gTaz gMesoNodes gMesoLinks gMicroNodes gMicroLinks))
      = some 5 ∧
    (1 : Int) ∈ selectLinkIds
      (fun l => l.layer == Layer.meso && l.link_type == some 0)
      (pipeline gTaz gMesoNodes gMesoLinks gMicroNodes gMicroLinks) ∧
    ¬ (5 : Int) < 1 := by
  refine ⟨by decide, by decide, by decide⟩

/-- C2 witness: in the concrete run the meso-connector row with id 1
precedes the meso-link row with id 4 in the id order. -/
theorem C2_link_block_order_witness :
    ((⟨1, 10, 12, some 0, Layer.meso⟩ : FinalLink)).link_id
      < ((⟨4, 12, 13, none, Layer.meso⟩ : FinalLink)).link_id :=
  C2_link_block_order gTaz gMesoNodes gMesoLinks gMicroNodes gMicroLinks
    gOut.1 gOut.2 (by decide) (by decide) (by decide) _ (by decide) _
    (by decide) (by decide)

/-- C3: in the concrete completed run the final node table's meso row 12
is present with NaN `x` and `y`, and in fact every non-TAZ row has NaN in
both coordinate columns (their source frames name the coordinates
`x_coord`/`y_coord`, which the `[node_id, x, y, zone_id, layer]`
projection does not pick up), while non-TAZ rows do exist. -/
theorem C3_non_taz_rows_missing_xy :
    (⟨12, none, none, none, Layer.meso⟩ : FinalNode) ∈ resultNodes
      (pipeline gTaz gMesoNodes gMesoLinks gMicroNodes gMicroLinks) ∧
    ((resultNodes (pipeline gTaz gMesoNodes gMesoLinks gMicroNodes
        gMicroLinks)).filter (fun n => !(n.layer == Layer.taz))).all
      (fun n => n.x == none && n.y == none) = true ∧
    (resultNodes (pipeline gTaz gMesoNodes gMesoLinks gMicroNodes
        gMicroLinks)).filter (fun n => !(n.layer == Layer.taz)) ≠ [] := by
  refine ⟨by decide, by decide, by decide⟩

/-- C4 (amended): `merge_network_layers` mutates its argument tables in
place: after a completed merge the caller's meso-link, micro-link and
micro-connector tables hold the shifted rows, which differ from the
originals whenever the tables are nonempty and the shifts nonzero (only
the meso-connector argument is left untouched; `reindex_nodes` and
`annotate_nodes_with_scc` do copy before mutating). -/
theorem C4_merge_mutates_in_place (ml : List MesoLink)
    (ul : List MicroLink) (uc : List ConnectorLink)
    (nsm nsmi lsm L lsmicro : Int)
    (hml : ml ≠ []) (hlsm : lsm ≠ 0)
    (hul : ul ≠ []) (hlsmicro : lsmicro ≠ 0)
    (huc : uc ≠ []) (hL : L ≠ 0) :
    mesoLinksShifted ml nsm lsm ≠ ml ∧
    microLinksShifted ul nsmi lsm lsmicro ≠ ul ∧
    microConnShifted uc L ≠ uc := by
  refine ⟨?_, ?_, ?_⟩
  · cases ml with
    | nil => exact absurd rfl hml
    | cons l ls =>
      intro h
      have h1 := congrArg (List.map (fun x : MesoLink => x.link_id)) h
      rw [mesoLinksShifted_ids] at h1
      have h2 := congrArg List.head? h1
      simp only [List.map_cons, List.head?_cons, Option.some.injEq] at h2
      omega
  · cases ul with
    | nil => exact absurd rfl hul
    | cons l ls =>
      intro h
      have h1 := congrArg (List.map (fun x : MicroLink => x.link_id)) h
      rw [microLinksShifted_ids] at h1
      have h2 := congrArg List.head? h1
      simp only [List.map_cons, List.head?_cons, Option.some.injEq] at h2
      omega
  · cases uc with
    | nil => exact absurd rfl huc
    | cons c cs =>
      intro h
      have h1 := congrArg (List.map (fun x : ConnectorLink => x.link_id)) h
      rw [microConnShifted_ids] at h1
      have h2 := congrArg List.head? h1
      simp only [List.map_cons, List.head?_cons, Option.some.injEq] at h2
      omega

/-- C4 counterexample: the concrete pipeline run completes, its merge uses
`node_shift_meso = 11` and `link_shift_meso = 3`, and the meso-link table
the caller passed in differs afterwards (its ids and endpoints were
shifted in place). -/
theorem C4_counterexample :
    compute_shifts (find_nearest_scc_nodes gTaz gMesoNodes 1) gMesoNodes
      = some (11, 13, 3) ∧
    (pipeline gTaz gMesoNodes gMesoLinks gMicroNodes gMicroLinks).isSome
      = true ∧
    mesoLinksShifted gMesoLinks 11 3 ≠ gMesoLinks := by
  refine ⟨by decide, by decide, by decide⟩

/-- C4 witness: the three in-place updates of the concrete run change all
three tables. -/
theorem C4_merge_mutates_witness :
    mesoLinksShifted gMesoLinks 11 3 ≠ gMesoLinks ∧
    microLinksShifted gMicroLinks 13 3 8 ≠ gMicroLinks ∧
    microConnShifted gMicroConn 5 ≠ gMicroConn :=
  C4_merge_mutates_in_place gMesoLinks gMicroLinks gMicroConn 11 13 3 5 8
    (by decide) (by decide) (by decide) (by decide) (by decide) (by decide)

/-- C7 (amended): with an empty largest SCC, `find_nearest_scc_nodes` does
not raise and gives every TAZ an empty candidate list; but the downstream
`map_taz_to_micro_nodes` then raises `KeyError` on the first TAZ row (the
candidate column is absent), rather than treating the rows as
candidate-less. -/
theorem C7_empty_scc (taz_df : List TazRow) (mn : List MesoNode)
    (ml : List MesoLink) (ul : List MicroLink) (un : List MicroNode)
    (k : Nat) (hscc : sccZeroNodes mn = []) (hne : taz_df ≠ []) :
    (∀ r ∈ find_nearest_scc_nodes taz_df mn k, r.candidates = []) ∧
    ∃ e, map_taz_to_micro_nodes (find_nearest_scc_nodes taz_df mn k)
      ml ul un = .error e := by
  have hcand : ∀ t : TazRow,
      (nearestRows t mn k).map (fun p => p.1.node_id) = [] := by
    intro t
    simp [nearestRows, distRows, hscc, sortOn]
  constructor
  · intro r hr
    obtain ⟨t, ht, rfl⟩ := List.mem_map.mp hr
    exact hcand t
  · cases taz_df with
    | nil => exact absurd rfl hne
    | cons t ts =>
      refine ⟨("KeyError: candidate_node_id_1"), ?_⟩
      have h1 : find_nearest_scc_nodes (t :: ts) mn k
          = { taz_clean := t.taz_clean, x_coord := t.x_coord,
              y_coord := t.y_coord, candidates := [] }
            :: find_nearest_scc_nodes ts mn k := by
        simp only [find_nearest_scc_nodes, List.map_cons]
        rw [hcand t]
      rw [h1]
      rfl

/-- C7 counterexample: on a network whose every meso node has
`scc_id = -1`, the TAZ-to-micro mapping raises (is not `.ok`) although the
candidate search produced a (candidate-less) row for the TAZ. -/
theorem C7_counterexample :
    exceptIsOk (map_taz_to_micro_nodes
      (find_nearest_scc_nodes eTaz eMesoNodes 1) gMesoLinks gMicroLinks
      gMicroNodes) = false ∧
    find_nearest_scc_nodes eTaz eMesoNodes 1 ≠ [] := by
  refine ⟨by decide, by decide⟩

/-- C7 witness: the amended statement applied to the concrete empty-core
network. -/
theorem C7_empty_scc_witness :
    (∀ r ∈ find_nearest_scc_nodes eTaz eMesoNodes 1, r.candidates = []) ∧
    ∃ e, map_taz_to_micro_nodes (find_nearest_scc_nodes eTaz eMesoNodes 1)
      gMesoLinks gMicroLinks gMicroNodes = .error e :=
  C7_empty_scc eTaz eMesoNodes gMesoLinks gMicroLinks gMicroNodes 1
    (by decide) (by decide)

/-- C5 witness: the concrete candidate search with `k = 1`. -/
theorem C5_nearest_candidates_witness :
    (find_nearest_scc_nodes gTaz gMesoNodes 1 = gTaz.map (fun t =>
      { taz_clean := t.taz_clean, x_coord := t.x_coord,
        y_coord := t.y_coord,
        candidates := (nearestRows t gMesoNodes 1).map
          (fun p => p.1.node_id) })) ∧
    ∀ t ∈ gTaz,
      (nearestRows t gMesoNodes 1).length
          = min 1 (sccZeroNodes gMesoNodes).length ∧
      (∀ p ∈ nearestRows t gMesoNodes 1, p.1 ∈ sccZeroNodes gMesoNodes) ∧
      (nearestRows t gMesoNodes 1).Pairwise (fun a b => a.2 ≤ b.2) ∧
      ∀ d : Int,
        (sortOn distLt (distRows t (sccZeroNodes gMesoNodes))).filter
          (fun p => p.2 == d)
        = (distRows t (sccZeroNodes gMesoNodes)).filter
            (fun p => p.2 == d) :=
  C5_nearest_candidates gTaz gMesoNodes 1 (by decide)

/-- C6 witness: the characterization applied to the concrete network at
meso node 1. -/
theorem C6_find_start_micro_nodes_witness :
    (∀ x : Int,
      x ∈ find_start_micro_nodes 1 gMesoLinks gMicroLinks ↔
      ((∃ l ∈ microSubset 1 gMesoLinks gMicroLinks, l.from_node_id = x) ∧
        ∀ l ∈ microSubset 1 gMesoLinks gMicroLinks, l.to_node_id ≠ x)) ∧
    (gMesoLinks.filter (fun l => l.from_node_id == 1) = [] →
      find_start_micro_nodes 1 gMesoLinks gMicroLinks = []) ∧
    (microSubset 1 gMesoLinks gMicroLinks = [] →
      find_start_micro_nodes 1 gMesoLinks gMicroLinks = []) :=
  C6_find_start_micro_nodes_spec 1 gMesoLinks gMicroLinks

/-- C8 witness: both concrete connector tables come in forward/reverse
pairs with even row counts. -/
theorem C8_connector_pairs_witness :
    (PairedConn gMesoConn ∧ gMesoConn.length % 2 = 0) ∧
    (PairedConn gMicroConn ∧ gMicroConn.length % 2 = 0) :=
  ⟨(C8_connector_pairs gTazCand gUpdatedMesoNodes 11 gTazCand gTazMicroMap
      gMicroNodes 13 gMesoConn gMicroConn).1 (by decide),
   (C8_connector_pairs gTazCand gUpdatedMesoNodes 11 gTazCand gTazMicroMap
      gMicroNodes 13 gMesoConn gMicroConn).2 (by decide)⟩

/-- C9 witness: the concrete run allocates meso-connector ids `1, 2`,
reserves `link_shift_meso = 3` and keeps every shifted meso link id above
every connector id. -/
theorem C9_id_allocation_witness :
    gMesoConn.map (fun c => c.link_id) = intRange 1 (2 * gTazCand.length) ∧
    (3 : Int) = 2 * (gTazCand.length : Int) + 1 ∧
    ((mesoLinksShifted gMesoLinks 11 3).map (fun l => l.link_id)
      = gMesoLinks.map (fun l => l.link_id + 3)) ∧
    (∀ m ∈ gMesoLinks, 0 ≤ m.link_id →
      ∀ c ∈ gMesoConn, c.link_id < m.link_id + 3) :=
  ⟨(C9_id_allocation gTazCand gUpdatedMesoNodes gMesoNodes 11 gMesoConn
      11 13 3 gMesoLinks).1 (by decide),
   (C9_id_allocation gTazCand gUpdatedMesoNodes gMesoNodes 11 gMesoConn
      11 13 3 gMesoLinks).2.1 (by decide),
   (C9_id_allocation gTazCand gUpdatedMesoNodes gMesoNodes 11 gMesoConn
      11 13 3 gMesoLinks).2.2.1,
   (C9_id_allocation gTazCand gUpdatedMesoNodes gMesoNodes 11 gMesoConn
      11 13 3 gMesoLinks).2.2.2 (by decide) (by decide)⟩

/-- C10 witness: the concrete TAZ-to-micro mapping succeeds and each of
its rows is backed by a micro node row and an entry node id. -/
theorem C10_map_taz_micro_witness :
    (∀ r ∈ gTazMicroMap,
      (∃ n ∈ gMicroNodes, n.node_id = r.micro_node_id ∧
        n.x_coord = r.x_coord ∧ n.y_coord = r.y_coord) ∧
      ∃ t ∈ gTazCand, ∃ cand, t.candidates.head? = some cand ∧
        r.taz_id = t.taz_clean ∧
        r.micro_node_id ∈ find_start_micro_nodes cand gMesoLinks
          gMicroLinks) ∧
    ∃ rows, map_taz_to_micro_nodes gTazCand gMesoLinks gMicroLinks
      gMicroNodes = .ok rows :=
  ⟨(C10_map_taz_micro_membership gTazCand gMesoLinks gMicroLinks
      gMicroNodes).1 gTazMicroMap (by rfl),
   (C10_map_taz_micro_membership gTazCand gMesoLinks gMicroLinks
      gMicroNodes).2 (by decide)⟩
